import Mathlib

set_option linter.unusedVariables false
set_option maxRecDepth 8192

/-!
Shallow embedding of the gamecard core of nxdumptool (src/source/core/gamecard.c)
and proofs about it.  Pure fragments of the C code become Lean functions; the
global mutable state becomes explicit record passing; the block-storage
transport, the crypto primitives and the Hash-FS byte decoders (all external
collaborators declared outside gamecard.c) become function-valued parameters.
Machine integers are modelled as Nat: none of the verified properties involve
u64 wrap-around, and all the quantities involved (offsets, sizes, versions)
are non-negative.
-/

/-! ## Constants (gamecard.c:27-38 and the gamecard.h interface) -/

/-- GAMECARD_READ_BUFFER_SIZE (gamecard.c:29): 8 MiB scratch read buffer. -/
def GAMECARD_READ_BUFFER_SIZE : Nat := 0x800000

/-- GAMECARD_UNUSED_AREA_BLOCK_SIZE (gamecard.c:33). -/
def GAMECARD_UNUSED_AREA_BLOCK_SIZE : Nat := 0x24

/-- Modelled from the spec: GAMECARD_PAGE_SIZE is declared in the gamecard.h
interface, which is not among the sources; it is the fixed page-alignment unit
for all physical storage offsets and lengths ("Page" in the spec glossary),
0x200 bytes on this platform. -/
def GAMECARD_PAGE_SIZE : Nat := 0x200

/-- GAMECARD_UNUSED_AREA_SIZE(x) (gamecard.c:34):
(((x) / GAMECARD_PAGE_SIZE) * GAMECARD_UNUSED_AREA_BLOCK_SIZE). -/
def GAMECARD_UNUSED_AREA_SIZE (x : Nat) : Nat :=
  (x / GAMECARD_PAGE_SIZE) * GAMECARD_UNUSED_AREA_BLOCK_SIZE

/-- Modelled from the spec: GAMECARD_CERTIFICATE_OFFSET (0x7000) and the size of
FsGameCardCertificate (0x200) come from the gamecard.h / libnx interfaces, which
are not among the sources; gamecard.c:1150 uses their sum as the smallest legal
Hash FS partition offset ("fixed certificate-region end" in the spec). -/
def GAMECARD_CERTIFICATE_OFFSET : Nat := 0x7000

/-- Modelled from the spec: sizeof(FsGameCardCertificate), see
GAMECARD_CERTIFICATE_OFFSET. -/
def FsGameCardCertificate_size : Nat := 0x200

/-- Modelled from the spec: sizeof(GameCardHeader) = 0x200, from the gamecard.h
interface (fixed-size record read from physical offset 0 of the normal area). -/
def GameCardHeader_size : Nat := 0x200

/-- Modelled from the spec: sizeof(HashFileSystemHeader) = 0x10 (u32 magic, u32
entry_count, u32 name_table_size, 4 reserved bytes), from the hfs.h interface. -/
def HashFileSystemHeader_size : Nat := 0x10

/-- Modelled from the spec: sizeof(HashFileSystemEntry) = 0x40, from the hfs.h
interface. -/
def HashFileSystemEntry_size : Nat := 0x40

/-- HFS0 magic word, big-endian "HFS0" (gamecard.c:27). -/
def HFS0_MAGIC : Nat := 0x48465330

/-- ALIGN_DOWN(x, y) from nxdt_utils.h: ((x) & ~((y) - 1)); for the power-of-two
alignments used by gamecard.c this equals x - x % y. -/
def ALIGN_DOWN (x y : Nat) : Nat := x - x % y

/-- ALIGN_UP(x, y) from nxdt_utils.h: (((x) + ((y) - 1)) & ~((y) - 1)). -/
def ALIGN_UP (x y : Nat) : Nat := ALIGN_DOWN (x + (y - 1)) y

/-- __builtin_bswap32: byte-swap of a 32-bit value. -/
def bswap32 (x : Nat) : Nat :=
  (x % 0x100) * 0x1000000 + (x / 0x100 % 0x100) * 0x10000 +
    (x / 0x10000 % 0x100) * 0x100 + (x / 0x1000000 % 0x100)

/-! ## Data model -/

/-- Modelled from the spec: the GameCardStatus enum is declared in the
gamecard.h interface, which is not among the sources.  The spec ("CartridgeStatus")
names the five values; the numeric order is chosen so that the two
inserted-info states are the two greatest values, which is what the
`g_gameCardStatus < GameCardStatus_InsertedAndInfoNotLoaded` guards in
gamecard.c:903 and gamecard.c:985 require. -/
inductive GameCardStatus where
  | NotInserted
  | NoGameCardPatchEnabled
  | LotusAsicFirmwareUpdateRequired
  | InsertedAndInfoNotLoaded
  | InsertedAndInfoLoaded
deriving DecidableEq

/-- Numeric value of a GameCardStatus, used by the `<` guards. -/
def GameCardStatus.val : GameCardStatus → Nat
  | .NotInserted => 0
  | .NoGameCardPatchEnabled => 1
  | .LotusAsicFirmwareUpdateRequired => 2
  | .InsertedAndInfoNotLoaded => 3
  | .InsertedAndInfoLoaded => 4

/-- GameCardStorageArea (gamecard.c:42-46). -/
inductive GameCardStorageArea where
  | None
  | Normal
  | Secure
deriving DecidableEq

/-- The block-storage transport collaborator (libnx fsStorage* / device
operator), external to gamecard.c.  `phys a o` is the byte the hardware holds
at physical offset `o` of area `a`; `ok a o l` says whether the transport read
of `l` bytes at offset `o` of area `a` succeeds; `openOk a` says whether
opening area `a` (gamecardOpenStorageArea's handle acquisition) succeeds. -/
structure GameCardTransport where
  phys : GameCardStorageArea → Nat → Nat
  ok : GameCardStorageArea → Nat → Nat → Bool
  openOk : GameCardStorageArea → Bool

/-- The bytes a successful transport read of `len` bytes at offset `off` of
area `a` produces. -/
def physBytes (tr : GameCardTransport) (a : GameCardStorageArea) : Nat → Nat → List Nat
  | _, 0 => []
  | off, len+1 => tr.phys a off :: physBytes tr a (off + 1) len

/-- fsStorageRead collaborator: reads `len` bytes at offset `off` of the open
area `a`; fails when the transport fails. -/
def fsStorageRead (tr : GameCardTransport) (a : GameCardStorageArea) (off len : Nat) :
    Option (List Nat) :=
  if tr.ok a off len then some (physBytes tr a off len) else none

/-- The storage-geometry slice of the gamecard.c globals used by
gamecardReadStorageArea (g_gameCardStatus, g_gameCardNormalAreaSize,
g_gameCardSecureAreaSize, g_gameCardTotalSize). -/
structure GameCardGlobals where
  status : GameCardStatus
  normalAreaSize : Nat
  secureAreaSize : Nat
  totalSize : Nat
deriving DecidableEq

/-! ## gamecardReadStorageArea (gamecard.c:983-1058)

The C function is self-recursive in two places: the normal/secure straddle
split (gamecard.c:1003) re-enters the whole function, and the chunked
unaligned path (gamecard.c:1053) re-enters it for the remainder.  The code
between those points (open area, alignment handling) is straight-line code
executed both on direct entry and after the straddle adjustment, so the
embedding separates the two program points as the two constructors of
`ReadCall`: `.top` is entry at gamecard.c:983, `.single` is the continuation
at gamecard.c:1012 with the already-adjusted area/size/offset.  Recursion is
by fuel so that the function stays kernel-computable; `ReadCall.minFuel` is a
sufficient fuel bound, and `readRun` (fuel irrelevance proved below) is the
fuel-free view that the theorems use.

A read result is `some (bytes, trace)` on success, where `bytes` are the bytes
written to the caller buffer and `trace` records every issued transport read
as (area, physical offset, length); `none` is failure.  The `!out` null-check
of gamecard.c:985 has no counterpart (the model has no pointers). -/

abbrev ReadTrace := List (GameCardStorageArea × Nat × Nat)

abbrev ReadResult := Option (List Nat × ReadTrace)

inductive ReadCall where
  | top (read_size offset : Nat)
  | single (area : GameCardStorageArea) (read_size offset : Nat)

/-- Sufficient fuel for a `ReadCall`: every recursive call strictly decreases
this measure. -/
def ReadCall.minFuel : ReadCall → Nat
  | .top rs _ => 2 * rs + 1
  | .single _ rs _ => max 1 (2 * rs)

/-- The "proper storage area offset" of gamecard.c:1021:
(area == GameCardStorageArea_Normal ? offset : (offset - g_gameCardNormalAreaSize)). -/
def singleBase (g : GameCardGlobals) (area : GameCardStorageArea) (offset : Nat) : Nat :=
  if area = GameCardStorageArea.Normal then offset else offset - g.normalAreaSize

/-- One unfolding of gamecardReadStorageArea, with `rec` standing for the
recursive self-calls. -/
def readStorageStep (g : GameCardGlobals) (tr : GameCardTransport)
    (rec : ReadCall → ReadResult) : ReadCall → ReadResult
  | .top read_size offset =>
    -- gamecard.c:985 parameter check
    if g.status.val < GameCardStatus.InsertedAndInfoNotLoaded.val ∨
        g.normalAreaSize = 0 ∨ g.secureAreaSize = 0 ∨ read_size = 0 ∨
        offset + read_size > g.totalSize then
      none
    else
      -- gamecard.c:993
      let area := if offset < g.normalAreaSize then GameCardStorageArea.Normal
        else GameCardStorageArea.Secure
      -- gamecard.c:997-1010 straddled read split
      if area = GameCardStorageArea.Normal ∧ offset + read_size > g.normalAreaSize then
        let diff_size := g.normalAreaSize - offset
        match rec (.top diff_size offset) with
        | none => none
        | some (first, t1) =>
          match rec (.single .Secure (read_size - diff_size) g.normalAreaSize) with
          | none => none
          | some (second, t2) => some (first ++ second, t1 ++ t2)
      else
        rec (.single area read_size offset)
  | .single area read_size offset =>
    -- gamecard.c:1014 open the storage area
    if tr.openOk area = false then none
    else
      -- gamecard.c:1021
      let base_offset := singleBase g area offset
      -- gamecard.c:1023-1033 page-aligned fast path
      if base_offset % GAMECARD_PAGE_SIZE = 0 ∧ read_size % GAMECARD_PAGE_SIZE = 0 then
        match fsStorageRead tr area base_offset read_size with
        | none => none
        | some bytes => some (bytes, [(area, base_offset, read_size)])
      else
        -- gamecard.c:1035-1053 copy through the scratch buffer
        let block_start_offset := ALIGN_DOWN base_offset GAMECARD_PAGE_SIZE
        let block_end_offset := ALIGN_UP (base_offset + read_size) GAMECARD_PAGE_SIZE
        let block_size := block_end_offset - block_start_offset
        let data_start_offset := base_offset - block_start_offset
        let chunk_size := if block_size > GAMECARD_READ_BUFFER_SIZE
          then GAMECARD_READ_BUFFER_SIZE else block_size
        let out_chunk_size := if block_size > GAMECARD_READ_BUFFER_SIZE
          then GAMECARD_READ_BUFFER_SIZE - data_start_offset else read_size
        match fsStorageRead tr area block_start_offset chunk_size with
        | none => none
        | some scratch =>
          let out1 := (scratch.drop data_start_offset).take out_chunk_size
          if block_size > GAMECARD_READ_BUFFER_SIZE then
            match rec (.top (read_size - out_chunk_size) (offset + out_chunk_size)) with
            | none => none
            | some (rest, t2) =>
              some (out1 ++ rest, (area, block_start_offset, chunk_size) :: t2)
          else
            some (out1, [(area, block_start_offset, chunk_size)])

/-- Fuel-indexed recursive closure of `readStorageStep`. -/
def readStorageF (g : GameCardGlobals) (tr : GameCardTransport) :
    Nat → ReadCall → ReadResult
  | 0, _ => none
  | fuel+1, c => readStorageStep g tr (readStorageF g tr fuel) c

/-- Canonical (fuel-saturated) run of a read call. -/
def readRun (g : GameCardGlobals) (tr : GameCardTransport) (c : ReadCall) : ReadResult :=
  readStorageF g tr c.minFuel c

/-- gamecardReadStorageArea (gamecard.c:983): entry point of the recursive
reader.  Mirrors bool gamecardReadStorageArea(void *out, u64 read_size,
u64 offset); success carries the bytes delivered to `out` plus the transport
read trace. -/
def gamecardReadStorageArea (g : GameCardGlobals) (tr : GameCardTransport)
    (read_size offset : Nat) : ReadResult :=
  readRun g tr (.top read_size offset)

/-- The reference logical address space: the normal area followed by the
secure area (spec: "the logical address space is the concatenation of the two
areas in that order"). -/
def logicalByte (g : GameCardGlobals) (tr : GameCardTransport) (off : Nat) : Nat :=
  if off < g.normalAreaSize then tr.phys .Normal off
  else tr.phys .Secure (off - g.normalAreaSize)

/-- Reference direct read of `len` logical bytes at logical offset `off`. -/
def referenceRead (g : GameCardGlobals) (tr : GameCardTransport) : Nat → Nat → List Nat
  | 0, _ => []
  | len+1, off => logicalByte g tr off :: referenceRead g tr len (off + 1)

/-- The physical area a logical offset falls in (gamecard.c:993). -/
def readAreaOf (g : GameCardGlobals) (offset : Nat) : GameCardStorageArea :=
  if offset < g.normalAreaSize then .Normal else .Secure

/-- The area-relative physical offset of a logical offset (gamecard.c:1021). -/
def readBaseOf (g : GameCardGlobals) (offset : Nat) : Nat :=
  if offset < g.normalAreaSize then offset else offset - g.normalAreaSize

/-! ## List-level facts about transport bytes and the reference read -/

theorem physBytes_length (tr : GameCardTransport) (a : GameCardStorageArea) :
    ∀ len off, (physBytes tr a off len).length = len := by
  intro len
  induction len with
  | zero => intro off; simp [physBytes]
  | succ n ih => intro off; simp [physBytes, ih]


theorem physBytes_append (tr : GameCardTransport) (a : GameCardStorageArea) :
    ∀ m n off, physBytes tr a off (m + n) = physBytes tr a off m ++ physBytes tr a (off + m) n := by
  intro m
  induction m with
  | zero => intro n off; simp [physBytes]
  | succ k ih =>
    intro n off
    have h1 : k + 1 + n = (k + n) + 1 := by omega
    have h2 : off + 1 + k = off + (k + 1) := by omega
    rw [h1]
    simp only [physBytes, List.cons_append]
    rw [ih n (off + 1), h2]

theorem physBytes_drop (tr : GameCardTransport) (a : GameCardStorageArea) :
    ∀ d len off, (physBytes tr a off len).drop d = physBytes tr a (off + d) (len - d) := by
  intro d
  induction d with
  | zero => intro len off; simp
  | succ k ih =>
    intro len off
    cases len with
    | zero => simp [physBytes]
    | succ m =>
      simp only [physBytes, List.drop_succ_cons]
      rw [ih m (off + 1)]
      have h2 : off + 1 + k = off + (k + 1) := by omega
      have h3 : m - k = m + 1 - (k + 1) := by omega
      rw [h2, h3]

theorem physBytes_take (tr : GameCardTransport) (a : GameCardStorageArea) :
    ∀ k len off, (physBytes tr a off len).take k = physBytes tr a off (min k len) := by
  intro k
  induction k with
  | zero => intro len off; simp [physBytes]
  | succ j ih =>
    intro len off
    cases len with
    | zero => simp [physBytes]
    | succ m =>
      simp only [physBytes, List.take_succ_cons]
      rw [ih m (off + 1)]
      have h1 : min (j + 1) (m + 1) = (min j m) + 1 := by omega
      rw [h1]
      simp [physBytes]

theorem referenceRead_append (g : GameCardGlobals) (tr : GameCardTransport) :
    ∀ m n off, referenceRead g tr (m + n) off
      = referenceRead g tr m off ++ referenceRead g tr n (off + m) := by
  intro m
  induction m with
  | zero => intro n off; simp [referenceRead]
  | succ k ih =>
    intro n off
    have h1 : k + 1 + n = (k + n) + 1 := by omega
    have h2 : off + 1 + k = off + (k + 1) := by omega
    rw [h1]
    simp only [referenceRead, List.cons_append]
    rw [ih n (off + 1), h2]

theorem referenceRead_normal (g : GameCardGlobals) (tr : GameCardTransport) :
    ∀ len off, off + len ≤ g.normalAreaSize →
      referenceRead g tr len off = physBytes tr .Normal off len := by
  intro len
  induction len with
  | zero => intro off _; simp [referenceRead, physBytes]
  | succ k ih =>
    intro off h
    simp only [referenceRead, physBytes]
    rw [ih (off + 1) (by omega)]
    simp [logicalByte, show off < g.normalAreaSize by omega]

theorem referenceRead_secure (g : GameCardGlobals) (tr : GameCardTransport) :
    ∀ len off, g.normalAreaSize ≤ off →
      referenceRead g tr len off = physBytes tr .Secure (off - g.normalAreaSize) len := by
  intro len
  induction len with
  | zero => intro off _; simp [referenceRead, physBytes]
  | succ k ih =>
    intro off h
    simp only [referenceRead, physBytes]
    rw [ih (off + 1) (by omega)]
    have h2 : off + 1 - g.normalAreaSize = off - g.normalAreaSize + 1 := by omega
    rw [h2]
    simp [logicalByte, show ¬ off < g.normalAreaSize by omega]

theorem referenceRead_length (g : GameCardGlobals) (tr : GameCardTransport) :
    ∀ len off, (referenceRead g tr len off).length = len := by
  intro len
  induction len with
  | zero => intro off; simp [referenceRead]
  | succ k ih => intro off; simp [referenceRead, ih]

/-! ## Fuel irrelevance for the reader -/

theorem ReadCall.minFuel_pos (c : ReadCall) : 1 ≤ c.minFuel := by
  cases c <;> simp only [ReadCall.minFuel] <;> omega

/-- data_start_offset is below the page size. -/
theorem data_start_lt_page (base : Nat) :
    base - ALIGN_DOWN base GAMECARD_PAGE_SIZE < GAMECARD_PAGE_SIZE := by
  simp only [ALIGN_DOWN, GAMECARD_PAGE_SIZE]
  omega

/-- A block never exceeds the requested size by more than two pages. -/
theorem block_size_le (base rs : Nat) :
    ALIGN_UP (base + rs) GAMECARD_PAGE_SIZE - ALIGN_DOWN base GAMECARD_PAGE_SIZE
      ≤ rs + 2 * GAMECARD_PAGE_SIZE := by
  simp only [ALIGN_UP, ALIGN_DOWN, GAMECARD_PAGE_SIZE]
  omega

/-- A block that overflows the 8 MiB scratch buffer comes from a nonzero
requested size. -/
theorem rs_pos_of_big (base rs : Nat)
    (h : ALIGN_UP (base + rs) GAMECARD_PAGE_SIZE - ALIGN_DOWN base GAMECARD_PAGE_SIZE
      > GAMECARD_READ_BUFFER_SIZE) : 1 ≤ rs := by
  have h1 := block_size_le base rs
  simp only [GAMECARD_PAGE_SIZE, GAMECARD_READ_BUFFER_SIZE] at *
  omega

/-- `readStorageStep` only consults `rec` at calls of strictly smaller
`minFuel`. -/
theorem readStorageStep_congr (g : GameCardGlobals) (tr : GameCardTransport)
    (r₁ r₂ : ReadCall → ReadResult) (c : ReadCall)
    (h : ∀ c', c'.minFuel < c.minFuel → r₁ c' = r₂ c') :
    readStorageStep g tr r₁ c = readStorageStep g tr r₂ c := by
  cases c with
  | top rs off =>
    by_cases hguard : g.status.val < GameCardStatus.InsertedAndInfoNotLoaded.val ∨
        g.normalAreaSize = 0 ∨ g.secureAreaSize = 0 ∨ rs = 0 ∨ off + rs > g.totalSize
    · simp [readStorageStep, hguard]
    · have hrs : rs ≠ 0 := by
        intro h0; exact hguard (Or.inr (Or.inr (Or.inr (Or.inl h0))))
      simp only [readStorageStep, if_neg hguard]
      by_cases hlt : off < g.normalAreaSize
      · simp only [if_pos hlt]
        by_cases hstr : off + rs > g.normalAreaSize
        · have e1 : r₁ (.top (g.normalAreaSize - off) off)
              = r₂ (.top (g.normalAreaSize - off) off) := by
            apply h; simp only [ReadCall.minFuel]; omega
          have e2 : r₁ (.single .Secure (rs - (g.normalAreaSize - off)) g.normalAreaSize)
              = r₂ (.single .Secure (rs - (g.normalAreaSize - off)) g.normalAreaSize) := by
            apply h; simp only [ReadCall.minFuel]; omega
          rw [if_pos (show True ∧ off + rs > g.normalAreaSize from ⟨trivial, hstr⟩)]
          rw [if_pos (show True ∧ off + rs > g.normalAreaSize from ⟨trivial, hstr⟩)]
          rw [e1, e2]
        · have e3 : r₁ (.single .Normal rs off) = r₂ (.single .Normal rs off) := by
            apply h; simp only [ReadCall.minFuel]; omega
          rw [if_neg (show ¬ (True ∧ off + rs > g.normalAreaSize) from fun hc => hstr hc.2)]
          rw [if_neg (show ¬ (True ∧ off + rs > g.normalAreaSize) from fun hc => hstr hc.2)]
          exact e3
      · simp only [if_neg hlt]
        have e4 : r₁ (.single .Secure rs off) = r₂ (.single .Secure rs off) := by
          apply h; simp only [ReadCall.minFuel]; omega
        rw [if_neg (show ¬ (GameCardStorageArea.Secure = GameCardStorageArea.Normal
            ∧ off + rs > g.normalAreaSize) from fun hc => by cases hc.1)]
        rw [if_neg (show ¬ (GameCardStorageArea.Secure = GameCardStorageArea.Normal
            ∧ off + rs > g.normalAreaSize) from fun hc => by cases hc.1)]
        exact e4
  | single area rs off =>
    simp only [readStorageStep]
    by_cases hopen : tr.openOk area = false
    · simp [hopen]
    · simp only [if_neg hopen]
      set base := singleBase g area off with hbase
      by_cases halign : base % GAMECARD_PAGE_SIZE = 0 ∧ rs % GAMECARD_PAGE_SIZE = 0
      · simp [halign]
      · simp only [if_neg halign]
        set bso := ALIGN_DOWN base GAMECARD_PAGE_SIZE with hbso
        by_cases hbig : ALIGN_UP (base + rs) GAMECARD_PAGE_SIZE - bso
            > GAMECARD_READ_BUFFER_SIZE
        · have hrs : 1 ≤ rs := rs_pos_of_big base rs hbig
          have hds : base - bso < GAMECARD_PAGE_SIZE := data_start_lt_page base
          have e5 : r₁ (.top (rs - (GAMECARD_READ_BUFFER_SIZE - (base - bso)))
                (off + (GAMECARD_READ_BUFFER_SIZE - (base - bso))))
              = r₂ (.top (rs - (GAMECARD_READ_BUFFER_SIZE - (base - bso)))
                (off + (GAMECARD_READ_BUFFER_SIZE - (base - bso)))) := by
            apply h
            simp only [ReadCall.minFuel]
            simp only [GAMECARD_PAGE_SIZE, GAMECARD_READ_BUFFER_SIZE] at *
            omega
          simp only [if_pos hbig, e5]
        · simp [hbig]

theorem readStorageF_irrel (g : GameCardGlobals) (tr : GameCardTransport) :
    ∀ n (c : ReadCall) (f₁ f₂ : Nat), c.minFuel = n → n ≤ f₁ → n ≤ f₂ →
      readStorageF g tr f₁ c = readStorageF g tr f₂ c := by
  intro n
  induction n using Nat.strong_induction_on with
  | _ n ih =>
    intro c f₁ f₂ hm h1 h2
    have hpos := c.minFuel_pos
    obtain ⟨a, rfl⟩ : ∃ a, f₁ = a + 1 := ⟨f₁ - 1, by omega⟩
    obtain ⟨b, rfl⟩ : ∃ b, f₂ = b + 1 := ⟨f₂ - 1, by omega⟩
    show readStorageStep g tr (readStorageF g tr a) c
      = readStorageStep g tr (readStorageF g tr b) c
    apply readStorageStep_congr
    intro c' hlt
    exact ih c'.minFuel (by omega) c' a b rfl (by omega) (by omega)

/-- The fuel-free unfolding equation for `readRun`. -/
theorem readRun_eq (g : GameCardGlobals) (tr : GameCardTransport) (c : ReadCall) :
    readRun g tr c = readStorageStep g tr (readRun g tr) c := by
  have hpos := c.minFuel_pos
  obtain ⟨a, ha⟩ : ∃ a, c.minFuel = a + 1 := ⟨c.minFuel - 1, by omega⟩
  show readStorageF g tr c.minFuel c = _
  rw [ha]
  show readStorageStep g tr (readStorageF g tr a) c = _
  apply readStorageStep_congr
  intro c' hlt
  exact readStorageF_irrel g tr c'.minFuel c' a c'.minFuel rfl (by omega) (by omega)

/-! ## Correctness of the reader -/

/-- Facts about a transport read recorded in a successful trace: it succeeded,
and both its physical offset and its length are page-aligned. -/
def ReadOkEntry (tr : GameCardTransport) (e : GameCardStorageArea × Nat × Nat) : Prop :=
  tr.ok e.1 e.2.1 e.2.2 = true ∧
    e.2.1 % GAMECARD_PAGE_SIZE = 0 ∧ e.2.2 % GAMECARD_PAGE_SIZE = 0

theorem align_down_mod (x : Nat) :
    ALIGN_DOWN x GAMECARD_PAGE_SIZE % GAMECARD_PAGE_SIZE = 0 := by
  simp only [ALIGN_DOWN, GAMECARD_PAGE_SIZE]
  omega

theorem align_down_le (x : Nat) : ALIGN_DOWN x GAMECARD_PAGE_SIZE ≤ x := by
  simp only [ALIGN_DOWN, GAMECARD_PAGE_SIZE]
  omega

theorem le_align_up (x : Nat) : x ≤ ALIGN_UP x GAMECARD_PAGE_SIZE := by
  simp only [ALIGN_UP, ALIGN_DOWN, GAMECARD_PAGE_SIZE]
  omega

theorem align_up_mod (x : Nat) :
    ALIGN_UP x GAMECARD_PAGE_SIZE % GAMECARD_PAGE_SIZE = 0 := by
  simp only [ALIGN_UP, ALIGN_DOWN, GAMECARD_PAGE_SIZE]
  omega

theorem buffer_mod_page : GAMECARD_READ_BUFFER_SIZE % GAMECARD_PAGE_SIZE = 0 := by
  simp [GAMECARD_READ_BUFFER_SIZE, GAMECARD_PAGE_SIZE]

theorem fsStorageRead_some (tr : GameCardTransport) (a : GameCardStorageArea)
    (off len : Nat) (bs : List Nat) (h : fsStorageRead tr a off len = some bs) :
    tr.ok a off len = true ∧ bs = physBytes tr a off len := by
  by_cases hk : tr.ok a off len
  · refine ⟨hk, ?_⟩
    rw [fsStorageRead, if_pos hk] at h
    exact (Option.some.injEq _ _ ▸ h).symm
  · rw [fsStorageRead, if_neg hk] at h
    cases h

/-- A successful top-level read implies the gamecard.c:985 parameter check
passed. -/
theorem readRun_top_facts (g : GameCardGlobals) (tr : GameCardTransport)
    (rs off : Nat) (b : List Nat) (t : ReadTrace)
    (h : readRun g tr (.top rs off) = some (b, t)) :
    GameCardStatus.InsertedAndInfoNotLoaded.val ≤ g.status.val ∧
      g.normalAreaSize ≠ 0 ∧ g.secureAreaSize ≠ 0 ∧ rs ≠ 0 ∧
      off + rs ≤ g.totalSize := by
  rw [readRun_eq] at h
  simp only [readStorageStep] at h
  by_cases hg : g.status.val < GameCardStatus.InsertedAndInfoNotLoaded.val ∨
      g.normalAreaSize = 0 ∨ g.secureAreaSize = 0 ∨ rs = 0 ∨ off + rs > g.totalSize
  · rw [if_pos hg] at h
    simp at h
  · push_neg at hg
    obtain ⟨h1, h2, h3, h4, h5⟩ := hg
    exact ⟨by omega, h2, h3, h4, by omega⟩

/-- Correctness of a `.single` continuation, assuming correctness of smaller
top-level reads: the delivered bytes match the reference read, they are
complete, and every recorded transport read succeeded and was page-aligned. -/
theorem readRun_single_aux (g : GameCardGlobals) (tr : GameCardTransport) (rs : Nat)
    (ihtop : ∀ m, m < rs → ∀ off b t, readRun g tr (.top m off) = some (b, t) →
      b = referenceRead g tr m off ∧ b.length = m ∧ ∀ e ∈ t, ReadOkEntry tr e)
    (a : GameCardStorageArea) (off : Nat) (b : List Nat) (t : ReadTrace)
    (hsome : readRun g tr (.single a rs off) = some (b, t))
    (href : ∀ k, k ≤ rs →
      referenceRead g tr k off = physBytes tr a (singleBase g a off) k) :
    b = referenceRead g tr rs off ∧ b.length = rs ∧ ∀ e ∈ t, ReadOkEntry tr e := by
  rw [readRun_eq] at hsome
  simp only [readStorageStep] at hsome
  set base := singleBase g a off with hbase
  by_cases hopen : tr.openOk a = false
  · rw [if_pos hopen] at hsome
    simp at hsome
  rw [if_neg hopen] at hsome
  by_cases halign : base % GAMECARD_PAGE_SIZE = 0 ∧ rs % GAMECARD_PAGE_SIZE = 0
  · -- aligned fast path (gamecard.c:1023-1033)
    rw [if_pos halign] at hsome
    cases hfs : fsStorageRead tr a base rs with
    | none => rw [hfs] at hsome; simp at hsome
    | some bytes =>
      rw [hfs] at hsome
      obtain ⟨hok, hbytes⟩ := fsStorageRead_some tr a base rs bytes hfs
      simp only [Option.some.injEq, Prod.mk.injEq] at hsome
      obtain ⟨hb, ht⟩ := hsome
      refine ⟨?_, ?_, ?_⟩
      · rw [← hb, hbytes, href rs le_rfl]
      · rw [← hb, hbytes, physBytes_length]
      · intro e he
        rw [← ht] at he
        simp only [List.mem_singleton] at he
        subst he
        exact ⟨hok, halign.1, halign.2⟩
  · -- copy through the scratch buffer (gamecard.c:1035-1053)
    rw [if_neg halign] at hsome
    set bso := ALIGN_DOWN base GAMECARD_PAGE_SIZE with hbso
    set beo := ALIGN_UP (base + rs) GAMECARD_PAGE_SIZE with hbeo
    have hbsole : bso ≤ base := by rw [hbso]; exact align_down_le base
    have hbsomod : bso % GAMECARD_PAGE_SIZE = 0 := by rw [hbso]; exact align_down_mod base
    have hbeomod : beo % GAMECARD_PAGE_SIZE = 0 := by rw [hbeo]; exact align_up_mod (base + rs)
    have hbeoge : base + rs ≤ beo := by rw [hbeo]; exact le_align_up (base + rs)
    have hds_lt : base - bso < GAMECARD_PAGE_SIZE := by rw [hbso]; exact data_start_lt_page base
    by_cases hbig : beo - bso > GAMECARD_READ_BUFFER_SIZE
    · simp only [if_pos hbig] at hsome
      cases hfs : fsStorageRead tr a bso GAMECARD_READ_BUFFER_SIZE with
      | none => rw [hfs] at hsome; simp at hsome
      | some scratch =>
        rw [hfs] at hsome
        obtain ⟨hok, hscratch⟩ := fsStorageRead_some tr a bso GAMECARD_READ_BUFFER_SIZE scratch hfs
        cases hrec : readRun g tr (.top (rs - (GAMECARD_READ_BUFFER_SIZE - (base - bso)))
            (off + (GAMECARD_READ_BUFFER_SIZE - (base - bso)))) with
        | none => rw [hrec] at hsome; simp at hsome
        | some p =>
          obtain ⟨rest, t2⟩ := p
          rw [hrec] at hsome
          simp only [Option.some.injEq, Prod.mk.injEq] at hsome
          obtain ⟨hb, ht⟩ := hsome
          have hoc_pos : 1 ≤ GAMECARD_READ_BUFFER_SIZE - (base - bso) := by
            have h := hds_lt
            simp only [GAMECARD_PAGE_SIZE, GAMECARD_READ_BUFFER_SIZE] at h ⊢
            omega
          have hrem := readRun_top_facts g tr _ _ _ _ hrec
          have hoc_lt : GAMECARD_READ_BUFFER_SIZE - (base - bso) < rs := by
            have h4 := hrem.2.2.2.1
            omega
          have hsub := ihtop (rs - (GAMECARD_READ_BUFFER_SIZE - (base - bso))) (by omega)
            (off + (GAMECARD_READ_BUFFER_SIZE - (base - bso))) rest t2 hrec
          have hout : (scratch.drop (base - bso)).take (GAMECARD_READ_BUFFER_SIZE - (base - bso))
              = physBytes tr a base (GAMECARD_READ_BUFFER_SIZE - (base - bso)) := by
            rw [hscratch, physBytes_drop, physBytes_take]
            have h1 : bso + (base - bso) = base := by omega
            rw [h1]
            congr 1
            omega
          refine ⟨?_, ?_, ?_⟩
          · rw [← hb, hout, hsub.1]
            have h2 : rs = (GAMECARD_READ_BUFFER_SIZE - (base - bso))
                + (rs - (GAMECARD_READ_BUFFER_SIZE - (base - bso))) := by omega
            have hsplit : referenceRead g tr rs off
                = referenceRead g tr (GAMECARD_READ_BUFFER_SIZE - (base - bso)) off
                  ++ referenceRead g tr (rs - (GAMECARD_READ_BUFFER_SIZE - (base - bso)))
                    (off + (GAMECARD_READ_BUFFER_SIZE - (base - bso))) := by
              calc referenceRead g tr rs off
                  = referenceRead g tr ((GAMECARD_READ_BUFFER_SIZE - (base - bso))
                    + (rs - (GAMECARD_READ_BUFFER_SIZE - (base - bso)))) off := by rw [← h2]
                _ = _ := referenceRead_append g tr _ _ off
            rw [hsplit, href (GAMECARD_READ_BUFFER_SIZE - (base - bso)) (by omega)]
          · rw [← hb]
            rw [List.length_append, hout, physBytes_length, hsub.2.1]
            omega
          · intro e he
            rw [← ht] at he
            simp only [List.mem_cons] at he
            rcases he with he | he
            · subst he
              exact ⟨hok, hbsomod, buffer_mod_page⟩
            · exact hsub.2.2 e he
    · simp only [if_neg hbig] at hsome
      cases hfs : fsStorageRead tr a bso (beo - bso) with
      | none => rw [hfs] at hsome; simp at hsome
      | some scratch =>
        rw [hfs] at hsome
        obtain ⟨hok, hscratch⟩ := fsStorageRead_some tr a bso (beo - bso) scratch hfs
        simp only [Option.some.injEq, Prod.mk.injEq] at hsome
        obtain ⟨hb, ht⟩ := hsome
        have hout : (scratch.drop (base - bso)).take rs = physBytes tr a base rs := by
          rw [hscratch, physBytes_drop, physBytes_take]
          have h1 : bso + (base - bso) = base := by omega
          rw [h1]
          congr 1
          omega
        refine ⟨?_, ?_, ?_⟩
        · rw [← hb, hout, href rs le_rfl]
        · rw [← hb, hout, physBytes_length]
        · intro e he
          rw [← ht] at he
          simp only [List.mem_singleton] at he
          subst he
          refine ⟨hok, hbsomod, ?_⟩
          have h1 := hbsomod
          have h2 := hbeomod
          have h3 := hbsole
          have h4 := hbeoge
          simp only [GAMECARD_PAGE_SIZE] at h1 h2 ⊢
          omega

/-- Master correctness of gamecardReadStorageArea: a successful read delivers
exactly the reference logical bytes, the full requested length, and every
transport read it issued succeeded and was page-aligned. -/
theorem readRun_spec (g : GameCardGlobals) (tr : GameCardTransport) : ∀ rs : Nat,
    (∀ a off b t, readRun g tr (.single a rs off) = some (b, t) →
      ((a = GameCardStorageArea.Normal ∧ off + rs ≤ g.normalAreaSize) ∨
        (a = GameCardStorageArea.Secure ∧ g.normalAreaSize ≤ off)) →
      b = referenceRead g tr rs off ∧ b.length = rs ∧ ∀ e ∈ t, ReadOkEntry tr e)
    ∧ (∀ off b t, readRun g tr (.top rs off) = some (b, t) →
      b = referenceRead g tr rs off ∧ b.length = rs ∧ ∀ e ∈ t, ReadOkEntry tr e) := by
  intro rs
  induction rs using Nat.strong_induction_on with
  | _ rs ih =>
    have ihtop : ∀ m, m < rs → ∀ off b t, readRun g tr (.top m off) = some (b, t) →
        b = referenceRead g tr m off ∧ b.length = m ∧ ∀ e ∈ t, ReadOkEntry tr e :=
      fun m hm => (ih m hm).2
    have hsingle : ∀ a off b t, readRun g tr (.single a rs off) = some (b, t) →
        ((a = GameCardStorageArea.Normal ∧ off + rs ≤ g.normalAreaSize) ∨
          (a = GameCardStorageArea.Secure ∧ g.normalAreaSize ≤ off)) →
        b = referenceRead g tr rs off ∧ b.length = rs ∧ ∀ e ∈ t, ReadOkEntry tr e := by
      intro a off b t hsome hmatch
      rcases hmatch with ⟨ha, hrange⟩ | ⟨ha, hrange⟩ <;> subst ha
      · refine readRun_single_aux g tr rs ihtop .Normal off b t hsome ?_
        intro k hk
        have hb : singleBase g .Normal off = off := by simp [singleBase]
        rw [hb]
        exact referenceRead_normal g tr k off (by omega)
      · refine readRun_single_aux g tr rs ihtop .Secure off b t hsome ?_
        intro k hk
        have hb : singleBase g .Secure off = off - g.normalAreaSize := by simp [singleBase]
        rw [hb]
        exact referenceRead_secure g tr k off hrange
    refine ⟨hsingle, ?_⟩
    intro off b t hsome
    rw [readRun_eq] at hsome
    simp only [readStorageStep] at hsome
    by_cases hguard : g.status.val < GameCardStatus.InsertedAndInfoNotLoaded.val ∨
        g.normalAreaSize = 0 ∨ g.secureAreaSize = 0 ∨ rs = 0 ∨ off + rs > g.totalSize
    · rw [if_pos hguard] at hsome
      simp at hsome
    · rw [if_neg hguard] at hsome
      push_neg at hguard
      obtain ⟨hst, hn0, hs0, hrs0, hbound⟩ := hguard
      by_cases hlt : off < g.normalAreaSize
      · simp only [if_pos hlt] at hsome
        by_cases hstr : off + rs > g.normalAreaSize
        · rw [if_pos (show True ∧ off + rs > g.normalAreaSize from ⟨trivial, hstr⟩)] at hsome
          cases hfirst : readRun g tr (.top (g.normalAreaSize - off) off) with
          | none => rw [hfirst] at hsome; simp at hsome
          | some p1 =>
            obtain ⟨first, t1⟩ := p1
            rw [hfirst] at hsome
            cases hsecond : readRun g tr
                (.single .Secure (rs - (g.normalAreaSize - off)) g.normalAreaSize) with
            | none => rw [hsecond] at hsome; simp at hsome
            | some p2 =>
              obtain ⟨second, t2⟩ := p2
              rw [hsecond] at hsome
              simp only [Option.some.injEq, Prod.mk.injEq] at hsome
              obtain ⟨hb, ht⟩ := hsome
              have hdiff_lt : g.normalAreaSize - off < rs := by omega
              have hfst := ihtop (g.normalAreaSize - off) hdiff_lt off first t1 hfirst
              have hsnd := (ih (rs - (g.normalAreaSize - off)) (by omega)).1
                .Secure g.normalAreaSize second t2 hsecond (Or.inr ⟨rfl, le_rfl⟩)
              have hsplit : referenceRead g tr rs off
                  = referenceRead g tr (g.normalAreaSize - off) off
                    ++ referenceRead g tr (rs - (g.normalAreaSize - off)) g.normalAreaSize := by
                have h2 : rs = (g.normalAreaSize - off) + (rs - (g.normalAreaSize - off)) := by
                  omega
                calc referenceRead g tr rs off
                    = referenceRead g tr ((g.normalAreaSize - off)
                      + (rs - (g.normalAreaSize - off))) off := by rw [← h2]
                  _ = referenceRead g tr (g.normalAreaSize - off) off
                      ++ referenceRead g tr (rs - (g.normalAreaSize - off))
                        (off + (g.normalAreaSize - off)) :=
                    referenceRead_append g tr _ _ off
                  _ = referenceRead g tr (g.normalAreaSize - off) off
                      ++ referenceRead g tr (rs - (g.normalAreaSize - off))
                        g.normalAreaSize := by
                    rw [show off + (g.normalAreaSize - off) = g.normalAreaSize from by omega]
              refine ⟨?_, ?_, ?_⟩
              · rw [← hb, hfst.1, hsnd.1, hsplit]
              · rw [← hb, List.length_append, hfst.2.1, hsnd.2.1]
                omega
              · intro e he
                rw [← ht] at he
                rcases List.mem_append.mp he with he | he
                · exact hfst.2.2 e he
                · exact hsnd.2.2 e he
        · rw [if_neg (show ¬ (True ∧ off + rs > g.normalAreaSize)
              from fun hc => hstr hc.2)] at hsome
          exact hsingle .Normal off b t hsome (Or.inl ⟨rfl, by omega⟩)
      · simp only [if_neg hlt] at hsome
        rw [if_neg (show ¬ (GameCardStorageArea.Secure = GameCardStorageArea.Normal
            ∧ off + rs > g.normalAreaSize) from fun hc => by cases hc.1)] at hsome
        exact hsingle .Secure off b t hsome (Or.inr ⟨rfl, by omega⟩)

/-- When the parameter check passes and the range lies in one area, the
top-level read reduces to its single-area continuation. -/
theorem readRun_top_to_single (g : GameCardGlobals) (tr : GameCardTransport)
    (rs off : Nat)
    (hst : GameCardStatus.InsertedAndInfoNotLoaded.val ≤ g.status.val)
    (hn0 : g.normalAreaSize ≠ 0) (hs0 : g.secureAreaSize ≠ 0) (hrs0 : rs ≠ 0)
    (hbound : off + rs ≤ g.totalSize)
    (harea : off + rs ≤ g.normalAreaSize ∨ g.normalAreaSize ≤ off) :
    readRun g tr (.top rs off) = readRun g tr (.single (readAreaOf g off) rs off) := by
  rw [readRun_eq (c := .top rs off)]
  simp only [readStorageStep]
  rw [if_neg (show ¬ (g.status.val < GameCardStatus.InsertedAndInfoNotLoaded.val ∨
      g.normalAreaSize = 0 ∨ g.secureAreaSize = 0 ∨ rs = 0 ∨ off + rs > g.totalSize) by
    push_neg
    exact ⟨by omega, hn0, hs0, hrs0, by omega⟩)]
  by_cases hlt : off < g.normalAreaSize
  · simp only [if_pos hlt]
    rw [if_neg (show ¬ (True ∧ off + rs > g.normalAreaSize) from fun hc => by
      rcases harea with h | h <;> omega)]
    simp [readAreaOf, hlt]
  · simp only [if_neg hlt]
    rw [if_neg (show ¬ (GameCardStorageArea.Secure = GameCardStorageArea.Normal
        ∧ off + rs > g.normalAreaSize) from fun hc => by cases hc.1)]
    simp [readAreaOf, hlt]

/-- The shape of the transport read trace of a single-area read: one direct
read of the requested range when it is already page-aligned, otherwise first
the enclosing page-aligned block clipped to the scratch buffer (and exactly
that one read when the block fits the scratch buffer). -/
theorem readRun_single_trace (g : GameCardGlobals) (tr : GameCardTransport)
    (a : GameCardStorageArea) (rs off : Nat) (b : List Nat) (t : ReadTrace)
    (hsing : readRun g tr (.single a rs off) = some (b, t)) :
    (singleBase g a off % GAMECARD_PAGE_SIZE = 0 ∧ rs % GAMECARD_PAGE_SIZE = 0 →
      t = [(a, singleBase g a off, rs)])
    ∧ (¬ (singleBase g a off % GAMECARD_PAGE_SIZE = 0 ∧ rs % GAMECARD_PAGE_SIZE = 0) →
      t.head? = some (a, ALIGN_DOWN (singleBase g a off) GAMECARD_PAGE_SIZE,
        if ALIGN_UP (singleBase g a off + rs) GAMECARD_PAGE_SIZE
            - ALIGN_DOWN (singleBase g a off) GAMECARD_PAGE_SIZE
            > GAMECARD_READ_BUFFER_SIZE
          then GAMECARD_READ_BUFFER_SIZE
          else ALIGN_UP (singleBase g a off + rs) GAMECARD_PAGE_SIZE
            - ALIGN_DOWN (singleBase g a off) GAMECARD_PAGE_SIZE)
      ∧ (ALIGN_UP (singleBase g a off + rs) GAMECARD_PAGE_SIZE
            - ALIGN_DOWN (singleBase g a off) GAMECARD_PAGE_SIZE
            ≤ GAMECARD_READ_BUFFER_SIZE →
          t = [(a, ALIGN_DOWN (singleBase g a off) GAMECARD_PAGE_SIZE,
            ALIGN_UP (singleBase g a off + rs) GAMECARD_PAGE_SIZE
              - ALIGN_DOWN (singleBase g a off) GAMECARD_PAGE_SIZE)])) := by
  rw [readRun_eq] at hsing
  simp only [readStorageStep] at hsing
  set base := singleBase g a off with hbase
  by_cases hopen : tr.openOk a = false
  · rw [if_pos hopen] at hsing
    simp at hsing
  rw [if_neg hopen] at hsing
  by_cases halign : base % GAMECARD_PAGE_SIZE = 0 ∧ rs % GAMECARD_PAGE_SIZE = 0
  · rw [if_pos halign] at hsing
    cases hfs : fsStorageRead tr a base rs with
    | none => rw [hfs] at hsing; simp at hsing
    | some bytes =>
      rw [hfs] at hsing
      simp only [Option.some.injEq, Prod.mk.injEq] at hsing
      refine ⟨fun _ => hsing.2.symm, fun hcon => absurd halign hcon⟩
  · rw [if_neg halign] at hsing
    refine ⟨fun hcon => absurd hcon halign, fun _ => ?_⟩
    set bso := ALIGN_DOWN base GAMECARD_PAGE_SIZE with hbso
    set beo := ALIGN_UP (base + rs) GAMECARD_PAGE_SIZE with hbeo
    by_cases hbig : beo - bso > GAMECARD_READ_BUFFER_SIZE
    · simp only [if_pos hbig] at hsing
      cases hfs : fsStorageRead tr a bso GAMECARD_READ_BUFFER_SIZE with
      | none => rw [hfs] at hsing; simp at hsing
      | some scratch =>
        rw [hfs] at hsing
        cases hrec : readRun g tr (.top (rs - (GAMECARD_READ_BUFFER_SIZE - (base - bso)))
            (off + (GAMECARD_READ_BUFFER_SIZE - (base - bso)))) with
        | none => rw [hrec] at hsing; simp at hsing
        | some p =>
          obtain ⟨rest, t2⟩ := p
          rw [hrec] at hsing
          simp only [Option.some.injEq, Prod.mk.injEq] at hsing
          rw [← hsing.2]
          rw [if_pos hbig]
          exact ⟨rfl, fun hle => absurd hle (by omega)⟩
    · simp only [if_neg hbig] at hsing
      cases hfs : fsStorageRead tr a bso (beo - bso) with
      | none => rw [hfs] at hsing; simp at hsing
      | some scratch =>
        rw [hfs] at hsing
        simp only [Option.some.injEq, Prod.mk.injEq] at hsing
        rw [← hsing.2]
        rw [if_neg hbig]
        exact ⟨rfl, fun _ => rfl⟩

/-! ## Claim theorems about the storage reader -/

/-- C2: for every logical read whose range straddles the normal/secure area
boundary (offset < normalAreaSize and offset + length > normalAreaSize), a
successful read returns exactly the concatenation of the bytes obtained by
independently reading the tail of the normal area [offset, normalAreaSize)
and the head of the secure area [normalAreaSize, offset + length). -/
theorem gamecard_C2 (g : GameCardGlobals) (tr : GameCardTransport)
    (rs off : Nat) (b : List Nat) (t : ReadTrace)
    (h1 : off < g.normalAreaSize)
    (h2 : g.normalAreaSize < off + rs)
    (hsucc : gamecardReadStorageArea g tr rs off = some (b, t)) :
    ∃ b₁ t₁ b₂ t₂,
      gamecardReadStorageArea g tr (g.normalAreaSize - off) off = some (b₁, t₁) ∧
      gamecardReadStorageArea g tr (rs - (g.normalAreaSize - off)) g.normalAreaSize
        = some (b₂, t₂) ∧
      b = b₁ ++ b₂ := by
  have hsome := hsucc
  have hfacts := readRun_top_facts g tr rs off b t hsome
  obtain ⟨f1, f2, f3, f4, f5⟩ := hfacts
  rw [gamecardReadStorageArea, readRun_eq] at hsome
  simp only [readStorageStep] at hsome
  rw [if_neg (show ¬ (g.status.val < GameCardStatus.InsertedAndInfoNotLoaded.val ∨
      g.normalAreaSize = 0 ∨ g.secureAreaSize = 0 ∨ rs = 0 ∨ off + rs > g.totalSize) by
    push_neg
    exact ⟨by omega, f2, f3, f4, by omega⟩)] at hsome
  simp only [if_pos h1] at hsome
  rw [if_pos (show True ∧ off + rs > g.normalAreaSize from ⟨trivial, by omega⟩)] at hsome
  cases hfirst : readRun g tr (.top (g.normalAreaSize - off) off) with
  | none => rw [hfirst] at hsome; simp at hsome
  | some p1 =>
    obtain ⟨first, t1⟩ := p1
    rw [hfirst] at hsome
    cases hsecond : readRun g tr
        (.single .Secure (rs - (g.normalAreaSize - off)) g.normalAreaSize) with
    | none => rw [hsecond] at hsome; simp at hsome
    | some p2 =>
      obtain ⟨second, t2⟩ := p2
      rw [hsecond] at hsome
      simp only [Option.some.injEq, Prod.mk.injEq] at hsome
      have htop2 : readRun g tr (.top (rs - (g.normalAreaSize - off)) g.normalAreaSize)
          = readRun g tr (.single .Secure (rs - (g.normalAreaSize - off)) g.normalAreaSize) := by
        have h3 := readRun_top_to_single g tr (rs - (g.normalAreaSize - off)) g.normalAreaSize
          f1 f2 f3 (by omega) (by omega) (Or.inr le_rfl)
        rw [h3]
        have h4 : readAreaOf g g.normalAreaSize = GameCardStorageArea.Secure := by
          simp [readAreaOf]
        rw [h4]
      exact ⟨first, t1, second, t2, hfirst, by rw [gamecardReadStorageArea, htop2]; exact hsecond,
        hsome.1.symm⟩

/-- C3: for every logical read lying fully inside one physical area, a
successful read is byte-identical to the reference direct read; when the
area-relative offset and the length are both page-aligned the reader issues
exactly one transport read of exactly the requested range; otherwise its first
transport read is the enclosing page-aligned block clipped to the 8 MiB
scratch buffer (and is the only read when that block fits the scratch buffer),
and every transport read it ever issues is page-aligned. -/
theorem gamecard_C3 (g : GameCardGlobals) (tr : GameCardTransport)
    (rs off : Nat) (b : List Nat) (t : ReadTrace)
    (harea : off + rs ≤ g.normalAreaSize ∨ g.normalAreaSize ≤ off)
    (hsucc : gamecardReadStorageArea g tr rs off = some (b, t)) :
    b = referenceRead g tr rs off
    ∧ (readBaseOf g off % GAMECARD_PAGE_SIZE = 0 ∧ rs % GAMECARD_PAGE_SIZE = 0 →
        t = [(readAreaOf g off, readBaseOf g off, rs)])
    ∧ (¬ (readBaseOf g off % GAMECARD_PAGE_SIZE = 0 ∧ rs % GAMECARD_PAGE_SIZE = 0) →
        t.head? = some (readAreaOf g off,
          ALIGN_DOWN (readBaseOf g off) GAMECARD_PAGE_SIZE,
          if ALIGN_UP (readBaseOf g off + rs) GAMECARD_PAGE_SIZE
              - ALIGN_DOWN (readBaseOf g off) GAMECARD_PAGE_SIZE
              > GAMECARD_READ_BUFFER_SIZE
            then GAMECARD_READ_BUFFER_SIZE
            else ALIGN_UP (readBaseOf g off + rs) GAMECARD_PAGE_SIZE
              - ALIGN_DOWN (readBaseOf g off) GAMECARD_PAGE_SIZE)
        ∧ (ALIGN_UP (readBaseOf g off + rs) GAMECARD_PAGE_SIZE
              - ALIGN_DOWN (readBaseOf g off) GAMECARD_PAGE_SIZE
              ≤ GAMECARD_READ_BUFFER_SIZE →
            t = [(readAreaOf g off, ALIGN_DOWN (readBaseOf g off) GAMECARD_PAGE_SIZE,
              ALIGN_UP (readBaseOf g off + rs) GAMECARD_PAGE_SIZE
                - ALIGN_DOWN (readBaseOf g off) GAMECARD_PAGE_SIZE)]))
    ∧ (∀ e ∈ t, e.2.1 % GAMECARD_PAGE_SIZE = 0 ∧ e.2.2 % GAMECARD_PAGE_SIZE = 0) := by
  have hspec := (readRun_spec g tr rs).2 off b t hsucc
  have hfacts := readRun_top_facts g tr rs off b t hsucc
  obtain ⟨f1, f2, f3, f4, f5⟩ := hfacts
  have hbridge := readRun_top_to_single g tr rs off f1 f2 f3 f4 f5 harea
  have hsing : readRun g tr (.single (readAreaOf g off) rs off) = some (b, t) := by
    rw [← hbridge]
    exact hsucc
  have hsb : singleBase g (readAreaOf g off) off = readBaseOf g off := by
    by_cases hlt : off < g.normalAreaSize <;>
      simp [singleBase, readAreaOf, readBaseOf, hlt]
  have htrace := readRun_single_trace g tr (readAreaOf g off) rs off b t hsing
  rw [hsb] at htrace
  refine ⟨hspec.1, htrace.1, htrace.2, ?_⟩
  intro e he
  exact ⟨(hspec.2.2 e he).2.1, (hspec.2.2 e he).2.2⟩

/-- C6: the storage-read operation fails whenever its preconditions are
violated (zero normal or secure area size, or logicalOffset + length beyond
totalSize), and a success always delivers the full requested length with
every issued transport read having succeeded — a partially filled buffer is
never reported as success. -/
theorem gamecard_C6 :
    (∀ (g : GameCardGlobals) (tr : GameCardTransport) (rs off : Nat),
      (g.normalAreaSize = 0 ∨ g.secureAreaSize = 0 ∨ g.totalSize < off + rs) →
      gamecardReadStorageArea g tr rs off = none)
    ∧ (∀ (g : GameCardGlobals) (tr : GameCardTransport) (rs off : Nat)
        (b : List Nat) (t : ReadTrace),
      gamecardReadStorageArea g tr rs off = some (b, t) →
      b.length = rs ∧ ∀ e ∈ t, tr.ok e.1 e.2.1 e.2.2 = true) := by
  constructor
  · intro g tr rs off hviol
    rw [gamecardReadStorageArea, readRun_eq]
    simp only [readStorageStep]
    rw [if_pos (show g.status.val < GameCardStatus.InsertedAndInfoNotLoaded.val ∨
        g.normalAreaSize = 0 ∨ g.secureAreaSize = 0 ∨ rs = 0 ∨ off + rs > g.totalSize by
      rcases hviol with h | h | h
      · exact Or.inr (Or.inl h)
      · exact Or.inr (Or.inr (Or.inl h))
      · exact Or.inr (Or.inr (Or.inr (Or.inr (by omega)))))]
  · intro g tr rs off b t hsucc
    have hspec := (readRun_spec g tr rs).2 off b t hsucc
    exact ⟨hspec.2.1, fun e he => (hspec.2.2 e he).1⟩

/-! ## Concrete fixtures used by the witness theorems -/

/-- A concrete always-succeeding transport whose byte at offset o is o % 7. -/
def trW : GameCardTransport :=
  { phys := fun _ o => o % 7, ok := fun _ _ _ => true, openOk := fun _ => true }

/-- A concrete geometry: two-byte normal area, two-byte secure area. -/
def gW : GameCardGlobals :=
  { status := .InsertedAndInfoNotLoaded, normalAreaSize := 2, secureAreaSize := 2,
    totalSize := 4 }

/-- A concrete geometry whose normal-area size is still zero. -/
def gW0 : GameCardGlobals :=
  { status := .InsertedAndInfoNotLoaded, normalAreaSize := 0, secureAreaSize := 2,
    totalSize := 2 }

/-- Witness for C2 at the concrete straddling read of 2 bytes at offset 1. -/
theorem gamecard_C2_witness :
    ∃ b₁ t₁ b₂ t₂,
      gamecardReadStorageArea gW trW (gW.normalAreaSize - 1) 1 = some (b₁, t₁) ∧
      gamecardReadStorageArea gW trW (2 - (gW.normalAreaSize - 1)) gW.normalAreaSize
        = some (b₂, t₂) ∧
      ([1, 0] : List Nat) = b₁ ++ b₂ :=
  gamecard_C2 gW trW 2 1 [1, 0]
    [(.Normal, 0, 512), (.Secure, 0, 512)] (by decide) (by decide) (by decide)

/-- Witness for C3 at the concrete single-area read of 1 byte at offset 0. -/
theorem gamecard_C3_witness : ([0] : List Nat) = referenceRead gW trW 1 0 :=
  (gamecard_C3 gW trW 1 0 [0] [(.Normal, 0, 512)] (by decide) (by decide)).1

/-- Witness for C6: a zero normal-area size is rejected, and the successful
1-byte read above delivered exactly 1 byte. -/
theorem gamecard_C6_witness :
    gamecardReadStorageArea gW0 trW 1 0 = none ∧ ([0] : List Nat).length = 1 :=
  ⟨gamecard_C6.1 gW0 trW 1 0 (Or.inl rfl),
   (gamecard_C6.2 gW trW 1 0 [0] [(.Normal, 0, 512)] (by decide)).1⟩

/-! ## Capacity lookup (gamecard.c:48-55 and gamecard.c:1110-1139) -/

/-- GameCardCapacity_1GiB = BIT_LONG(30) (gamecard.c:49). -/
def GameCardCapacity_1GiB : Nat := 2 ^ 30

/-- GameCardCapacity_2GiB = BIT_LONG(31) (gamecard.c:50). -/
def GameCardCapacity_2GiB : Nat := 2 ^ 31

/-- GameCardCapacity_4GiB = BIT_LONG(32) (gamecard.c:51). -/
def GameCardCapacity_4GiB : Nat := 2 ^ 32

/-- GameCardCapacity_8GiB = BIT_LONG(33) (gamecard.c:52). -/
def GameCardCapacity_8GiB : Nat := 2 ^ 33

/-- GameCardCapacity_16GiB = BIT_LONG(34) (gamecard.c:53). -/
def GameCardCapacity_16GiB : Nat := 2 ^ 34

/-- GameCardCapacity_32GiB = BIT_LONG(35) (gamecard.c:54). -/
def GameCardCapacity_32GiB : Nat := 2 ^ 35

/-- Modelled from the spec: the six GameCardRomSize geometry codes are declared
in the gamecard.h interface, which is not among the sources; these are the
header values.  The switch structure that consumes them is
gamecardGetCapacityFromRomSizeValue (gamecard.c:1110). -/
def GameCardRomSize_1GiB : Nat := 0xFA

/-- Modelled from the spec: see GameCardRomSize_1GiB. -/
def GameCardRomSize_2GiB : Nat := 0xF8

/-- Modelled from the spec: see GameCardRomSize_1GiB. -/
def GameCardRomSize_4GiB : Nat := 0xF0

/-- Modelled from the spec: see GameCardRomSize_1GiB. -/
def GameCardRomSize_8GiB : Nat := 0xE0

/-- Modelled from the spec: see GameCardRomSize_1GiB. -/
def GameCardRomSize_16GiB : Nat := 0xE1

/-- Modelled from the spec: see GameCardRomSize_1GiB. -/
def GameCardRomSize_32GiB : Nat := 0xE2

/-- gamecardGetCapacityFromRomSizeValue (gamecard.c:1110-1139): the switch on
the header's geometry code; every unlisted code falls through to capacity 0
(failure). -/
def gamecardGetCapacityFromRomSizeValue (rom_size : Nat) : Nat :=
  if rom_size = GameCardRomSize_1GiB then GameCardCapacity_1GiB
  else if rom_size = GameCardRomSize_2GiB then GameCardCapacity_2GiB
  else if rom_size = GameCardRomSize_4GiB then GameCardCapacity_4GiB
  else if rom_size = GameCardRomSize_8GiB then GameCardCapacity_8GiB
  else if rom_size = GameCardRomSize_16GiB then GameCardCapacity_16GiB
  else if rom_size = GameCardRomSize_32GiB then GameCardCapacity_32GiB
  else 0

/-! ## Hash FS partition parsing (gamecard.c:1141-1271)

The Hash FS byte decoders (hfs.c: hfsGetEntryCount, hfsGetEntryByIndex,
hfsGetNameTable and the struct views of the raw header bytes) and the SHA-256
primitive are collaborators outside gamecard.c; they appear here as the
function-valued fields of `HfsEnv`.  `readHfsHeader` stands for the
gamecardReadStorageArea call of gamecard.c:1188 (a partial header read,
decoded), `readFull` for the full-header read of gamecard.c:1224. -/

/-- The decoded fixed-size partial Hash FS header (hfs.h view). -/
structure HashFileSystemHeader where
  magic : Nat
  entry_count : Nat
  name_table_size : Nat
deriving DecidableEq

/-- A decoded Hash FS entry (hfs.h view). -/
structure HashFileSystemEntry where
  offset : Nat
  size : Nat
  name_offset : Nat
  hash_target_size : Nat
  hash_target_offset : Nat
  hash : List Nat
deriving DecidableEq

/-- HashFileSystemContext (hfs.h view), as filled by
gamecardInitializeHashFileSystemContext. -/
structure HashFileSystemContext where
  name : String
  type : Nat
  offset : Nat
  size : Nat
  header_size : Nat
  header : List Nat
deriving DecidableEq

/-- The external collaborators of the partition parser. -/
structure HfsEnv where
  readHfsHeader : Nat → Option HashFileSystemHeader
  readFull : Nat → Nat → Option (List Nat)
  sha256 : List Nat → List Nat
  entryCount : List Nat → Nat
  nameTableSize : List Nat → Nat
  getEntry : List Nat → Nat → HashFileSystemEntry
  nameAt : List Nat → Nat → String

/-- g_gameCardHfsPartitionNames (gamecard.c:141-148). -/
def g_gameCardHfsPartitionNames : List String :=
  ["root", "update", "logo", "normal", "secure", "boot"]

/-- Full Hash FS header size (gamecard.c:1212-1213): partial header size +
entryCount * entry size + name-table size, rounded up to the page size. -/
def gamecardHfsHeaderSize (fs_header : HashFileSystemHeader) : Nat :=
  ALIGN_UP (HashFileSystemHeader_size + fs_header.entry_count * HashFileSystemEntry_size
    + fs_header.name_table_size) GAMECARD_PAGE_SIZE

/-- The context-filling tail of gamecardInitializeHashFileSystemContext
(gamecard.c:1241-1252): the root partition (name = none) computes its size
from its last entry, a child uses the caller-supplied size. -/
def gamecardHfsFill (env : HfsEnv) (name : Option String) (ctxName : String)
    (ty offset size header_size : Nat) (fs_header : HashFileSystemHeader)
    (headerBytes : List Nat) : HashFileSystemContext :=
  let ctxSize :=
    match name with
    | some _ => size
    | none =>
      let fs_entry := env.getEntry headerBytes (fs_header.entry_count - 1)
      header_size + fs_entry.offset + fs_entry.size
  { name := ctxName, type := ty, offset := offset, size := ctxSize,
    header_size := header_size, header := headerBytes }

/-- gamecardInitializeHashFileSystemContext (gamecard.c:1141-1271).  `name =
none` designates the root partition (NULL name in C).  Memory allocations are
modelled as succeeding; every other failure path returns `none`. -/
def gamecardInitializeHashFileSystemContext (env : HfsEnv) (totalSize : Nat)
    (name : Option String) (offset size : Nat) (hash : Option (List Nat))
    (hash_target_offset hash_target_size : Nat) : Option HashFileSystemContext :=
  -- gamecard.c:1150-1155 parameter validation
  if name = some "" ∨ offset < GAMECARD_CERTIFICATE_OFFSET + FsGameCardCertificate_size ∨
      ¬ (offset % GAMECARD_PAGE_SIZE = 0) ∨
      (size ≠ 0 ∧ (¬ (size % GAMECARD_PAGE_SIZE = 0) ∨ offset + size > totalSize)) then
    none
  else
    -- gamecard.c:1166 partition name (root when NULL)
    let ctxName := name.getD "root"
    -- gamecard.c:1174-1185 type lookup in the fixed six-entry table
    match List.findIdx? (fun n => n == ctxName) g_gameCardHfsPartitionNames with
    | none => none
    | some ty =>
      -- gamecard.c:1188-1192 read the partial header
      match env.readHfsHeader offset with
      | none => none
      | some fs_header =>
        -- gamecard.c:1194-1200 magic word check
        if bswap32 fs_header.magic ≠ HFS0_MAGIC then none
        -- gamecard.c:1202-1209 entry count / name table size check
        else if (name = none ∧ fs_header.entry_count = 0) ∨ fs_header.name_table_size = 0 then
          none
        else
          -- gamecard.c:1212-1213
          let header_size := gamecardHfsHeaderSize fs_header
          -- gamecard.c:1223-1228 read the full header
          match env.readFull header_size offset with
          | none => none
          | some headerBytes =>
            -- gamecard.c:1230-1239 verify the header hash (if possible)
            match hash with
            | none =>
              some (gamecardHfsFill env name ctxName ty offset size header_size
                fs_header headerBytes)
            | some h =>
              if hash_target_size ≠ 0 ∧ hash_target_offset + hash_target_size ≤ header_size then
                if env.sha256 ((headerBytes.drop hash_target_offset).take hash_target_size)
                    = h then
                  some (gamecardHfsFill env name ctxName ty offset size header_size
                    fs_header headerBytes)
                else none
              else
                some (gamecardHfsFill env name ctxName ty offset size header_size
                  fs_header headerBytes)

/-! ## gamecardLoadInfo (gamecard.c:651-756) -/

/-- The slice of GameCardHeader (gamecard.h view) consumed by
gamecardLoadInfo and the query getters. -/
structure GameCardHeaderModel where
  rom_size : Nat
  valid_data_end_address : Nat
  partition_fs_header_address : Nat
  partition_fs_header_size : Nat
  partition_fs_header_hash : List Nat
deriving DecidableEq

/-- The collaborator results gamecardLoadInfo consumes.  `readHeaderOk` is
gamecardReadHeader (gamecard.c:791-819: open normal area, read, magic check);
`nogcPatch` tells whether its failure came from exhausted handle acquisition
on the normal area (in which case gamecardGetHandleAndStorage already set
g_gameCardStatus = GameCardStatus_NoGameCardPatchEnabled, gamecard.c:942);
`cardInfoKeyOk` is the key lookup of gamecardGetDecryptedCardInfoArea
(gamecard.c:828-833, the only failure path of that function); `fw_version`
is the decrypted CardInfo firmware field; `areaSizes` is
gamecardGetStorageAreasSizes' transport result (gamecard.c:1073-1108), with
`none` for a failed open/size query; `sxos` is
utilsGetCustomFirmwareType() == UtilsCustomFirmwareType_SXOS. -/
structure LoadEnv where
  hfs : HfsEnv
  readHeaderOk : Bool
  nogcPatch : Bool
  cardInfoKeyOk : Bool
  header : GameCardHeaderModel
  fw_version : Nat
  lafwVersion : Nat
  areaSizes : Option (Nat × Nat)
  sxos : Bool

/-- The gamecardLoadInfo-relevant globals after the call. -/
structure LoadResult where
  status : GameCardStatus
  normalAreaSize : Nat
  secureAreaSize : Nat
  totalSize : Nat
  capacity : Nat
  hfsCtx : Option (List HashFileSystemContext)
deriving DecidableEq

/-- The `end:` failure path of gamecardLoadInfo (gamecard.c:745-755): the
partially built partition contexts are released and gamecardFreeInfo(false)
clears header, info area, sizes and capacity, leaving the status word at the
terminal reached. -/
def gamecardLoadFail (s : GameCardStatus) : LoadResult :=
  { status := s, normalAreaSize := 0, secureAreaSize := 0, totalSize := 0,
    capacity := 0, hfsCtx := none }

/-- The root-partition parse call of gamecard.c:703. -/
def gamecardRootParse (env : LoadEnv) (totalSize : Nat) : Option HashFileSystemContext :=
  gamecardInitializeHashFileSystemContext env.hfs totalSize none
    env.header.partition_fs_header_address 0 (some env.header.partition_fs_header_hash)
    0 env.header.partition_fs_header_size

/-- One iteration of the child-partition loop (gamecard.c:726-739): entry
lookup, name resolution and validation, then the child parse call. -/
def gamecardChildParse (env : HfsEnv) (totalSize : Nat) (root : HashFileSystemContext)
    (i : Nat) : Option HashFileSystemContext :=
  let fs_entry := env.getEntry root.header i
  let fs_entry_name := env.nameAt root.header fs_entry.name_offset
  if fs_entry.name_offset ≥ env.nameTableSize root.header ∨ fs_entry_name = "" then none
  else
    gamecardInitializeHashFileSystemContext env totalSize (some fs_entry_name)
      (root.offset + root.header_size + fs_entry.offset) fs_entry.size
      (some fs_entry.hash) fs_entry.hash_target_offset fs_entry.hash_target_size

/-- The child-partition loop of gamecard.c:726-740, aborting at the first
failed child. -/
def gamecardLoadChildren (env : HfsEnv) (totalSize : Nat)
    (root : HashFileSystemContext) : Nat → Option (List HashFileSystemContext)
  | 0 => some []
  | n+1 =>
    match gamecardLoadChildren env totalSize root n with
    | none => none
    | some l =>
      match gamecardChildParse env totalSize root n with
      | none => none
      | some c => some (l ++ [c])

/-- gamecardLoadInfo after the firmware gate (gamecard.c:679-756): storage
area sizes, capacity, the SX OS secure-area size fixup, root parse and child
parses.  Note (gamecard.c:695-700): the SX OS branch recomputes
g_gameCardSecureAreaSize but does not recompute g_gameCardTotalSize, which
keeps the value normalSize + secureSize set at gamecard.c:1105. -/
def gamecardLoadInfoAfterGate (env : LoadEnv) : LoadResult :=
  match env.areaSizes with
  | none => gamecardLoadFail .InsertedAndInfoNotLoaded
  | some (normalSize, secureSize) =>
    -- gamecard.c:1091: a zero transport size fails gamecardGetStorageAreasSizes
    if normalSize = 0 ∨ secureSize = 0 then gamecardLoadFail .InsertedAndInfoNotLoaded
    else
      -- gamecard.c:1105
      let totalSize := normalSize + secureSize
      -- gamecard.c:687-693
      let capacity := gamecardGetCapacityFromRomSizeValue env.header.rom_size
      if capacity = 0 then gamecardLoadFail .InsertedAndInfoNotLoaded
      else
        -- gamecard.c:695-700
        let secureSize2 := if env.sxos then
            capacity - (normalSize + GAMECARD_UNUSED_AREA_SIZE capacity)
          else secureSize
        -- gamecard.c:702-704
        match gamecardRootParse env totalSize with
        | none => gamecardLoadFail .InsertedAndInfoNotLoaded
        | some root =>
          -- gamecard.c:706-740
          match gamecardLoadChildren env.hfs totalSize root
              (env.hfs.entryCount root.header) with
          | none => gamecardLoadFail .InsertedAndInfoNotLoaded
          | some children =>
            -- gamecard.c:742-743
            { status := .InsertedAndInfoLoaded, normalAreaSize := normalSize,
              secureAreaSize := secureSize2, totalSize := totalSize,
              capacity := capacity, hfsCtx := some (root :: children) }

/-- gamecardLoadInfo (gamecard.c:651-756): header read, CardInfo decryption,
firmware gate, then the post-gate stages. -/
def gamecardLoadInfo (env : LoadEnv) : LoadResult :=
  -- gamecard.c:662-665
  if env.readHeaderOk = false then
    gamecardLoadFail
      (if env.nogcPatch then .NoGameCardPatchEnabled else .InsertedAndInfoNotLoaded)
  -- gamecard.c:667-668
  else if env.cardInfoKeyOk = false then gamecardLoadFail .InsertedAndInfoNotLoaded
  -- gamecard.c:670-677 the firmware gate, inverted comparison included
  else if env.lafwVersion ≤ env.fw_version then
    gamecardLoadFail .LotusAsicFirmwareUpdateRequired
  else gamecardLoadInfoAfterGate env

/-- Every branch of the post-gate stage ends in a not-loaded failure record or
in the loaded terminal. -/
theorem gamecardLoadInfoAfterGate_status (env : LoadEnv) :
    (gamecardLoadInfoAfterGate env).status = GameCardStatus.InsertedAndInfoNotLoaded ∨
      (gamecardLoadInfoAfterGate env).status = GameCardStatus.InsertedAndInfoLoaded := by
  unfold gamecardLoadInfoAfterGate
  dsimp only
  repeat' split
  all_goals simp [gamecardLoadFail]

/-- A successful child loop means every child index below the count parsed
successfully. -/
theorem gamecardLoadChildren_some (env : HfsEnv) (totalSize : Nat)
    (root : HashFileSystemContext) :
    ∀ count l, gamecardLoadChildren env totalSize root count = some l →
      ∀ i, i < count → gamecardChildParse env totalSize root i ≠ none := by
  intro count
  induction count with
  | zero => intro l h i hi; omega
  | succ n ihc =>
    intro l h i hi
    unfold gamecardLoadChildren at h
    cases hprev : gamecardLoadChildren env totalSize root n with
    | none => rw [hprev] at h; simp at h
    | some l' =>
      rw [hprev] at h
      cases hc : gamecardChildParse env totalSize root n with
      | none => rw [hc] at h; simp at h
      | some c =>
        by_cases hin : i < n
        · exact ihc l' hprev i hin
        · have hieq : i = n := by omega
          rw [hieq, hc]
          simp

/-- Complete case analysis of gamecardLoadInfo: either some stage failed and
the result is a released, not-loaded record, or every stage succeeded and the
result is the loaded record built from the stage outputs. -/
theorem gamecardLoadInfo_cases (env : LoadEnv) :
    (∃ st, gamecardLoadInfo env = gamecardLoadFail st ∧
      st ≠ GameCardStatus.InsertedAndInfoLoaded)
    ∨ (∃ normalSize secureSize root children,
        env.areaSizes = some (normalSize, secureSize) ∧
        gamecardRootParse env (normalSize + secureSize) = some root ∧
        gamecardLoadChildren env.hfs (normalSize + secureSize) root
          (env.hfs.entryCount root.header) = some children ∧
        gamecardGetCapacityFromRomSizeValue env.header.rom_size ≠ 0 ∧
        gamecardLoadInfo env =
          { status := .InsertedAndInfoLoaded, normalAreaSize := normalSize,
            secureAreaSize := if env.sxos then
                gamecardGetCapacityFromRomSizeValue env.header.rom_size
                  - (normalSize + GAMECARD_UNUSED_AREA_SIZE
                    (gamecardGetCapacityFromRomSizeValue env.header.rom_size))
              else secureSize,
            totalSize := normalSize + secureSize,
            capacity := gamecardGetCapacityFromRomSizeValue env.header.rom_size,
            hfsCtx := some (root :: children) }) := by
  by_cases hh : env.readHeaderOk = false
  · refine Or.inl ⟨if env.nogcPatch = true then GameCardStatus.NoGameCardPatchEnabled
      else GameCardStatus.InsertedAndInfoNotLoaded, ?_, ?_⟩
    · simp only [gamecardLoadInfo, if_pos hh]
    · split <;> decide
  · by_cases hk : env.cardInfoKeyOk = false
    · refine Or.inl ⟨GameCardStatus.InsertedAndInfoNotLoaded, ?_, by decide⟩
      simp only [gamecardLoadInfo, if_neg hh, if_pos hk]
    · by_cases hg : env.lafwVersion ≤ env.fw_version
      · refine Or.inl ⟨GameCardStatus.LotusAsicFirmwareUpdateRequired, ?_, by decide⟩
        simp only [gamecardLoadInfo, if_neg hh, if_neg hk, if_pos hg]
      · have heq : gamecardLoadInfo env = gamecardLoadInfoAfterGate env := by
          simp only [gamecardLoadInfo, if_neg hh, if_neg hk, if_neg hg]
        cases hA : env.areaSizes with
        | none =>
          refine Or.inl ⟨GameCardStatus.InsertedAndInfoNotLoaded, ?_, by decide⟩
          rw [heq]
          simp only [gamecardLoadInfoAfterGate, hA]
        | some p =>
          obtain ⟨n, s⟩ := p
          by_cases h0 : n = 0 ∨ s = 0
          · refine Or.inl ⟨GameCardStatus.InsertedAndInfoNotLoaded, ?_, by decide⟩
            rw [heq]
            simp only [gamecardLoadInfoAfterGate, hA]
            rw [if_pos h0]
          · by_cases hcap : gamecardGetCapacityFromRomSizeValue env.header.rom_size = 0
            · refine Or.inl ⟨GameCardStatus.InsertedAndInfoNotLoaded, ?_, by decide⟩
              rw [heq]
              simp only [gamecardLoadInfoAfterGate, hA]
              rw [if_neg h0, if_pos hcap]
            · cases hroot : gamecardRootParse env (n + s) with
              | none =>
                refine Or.inl ⟨GameCardStatus.InsertedAndInfoNotLoaded, ?_, by decide⟩
                rw [heq]
                simp only [gamecardLoadInfoAfterGate, hA]
                rw [if_neg h0, if_neg hcap]
                simp only [hroot]
              | some root =>
                cases hch : gamecardLoadChildren env.hfs (n + s) root
                    (env.hfs.entryCount root.header) with
                | none =>
                  refine Or.inl ⟨GameCardStatus.InsertedAndInfoNotLoaded, ?_, by decide⟩
                  rw [heq]
                  simp only [gamecardLoadInfoAfterGate, hA]
                  rw [if_neg h0, if_neg hcap]
                  simp only [hroot]
                  simp only [hch]
                | some children =>
                  refine Or.inr ⟨n, s, root, children, rfl, hroot, hch, hcap, ?_⟩
                  rw [heq]
                  simp only [gamecardLoadInfoAfterGate, hA]
                  rw [if_neg h0, if_neg hcap]
                  simp only [hroot]
                  simp only [hch]

/-! ## Claim theorems about bring-up -/

/-- C1: when the header read and the CardInfo key lookup succeed, bring-up
proceeds past the firmware gate into the post-gate stages exactly when the
installed Lotus firmware version is strictly greater than the info-block
firmware-version field; when installed <= field (equality included) the load
stops with the firmware-update-required terminal and no partition contexts. -/
theorem gamecard_C1 (env : LoadEnv) (hh : env.readHeaderOk = true)
    (hk : env.cardInfoKeyOk = true) :
    (gamecardLoadInfo env = gamecardLoadInfoAfterGate env
      ↔ env.fw_version < env.lafwVersion)
    ∧ (env.lafwVersion ≤ env.fw_version →
        (gamecardLoadInfo env).status = GameCardStatus.LotusAsicFirmwareUpdateRequired
        ∧ (gamecardLoadInfo env).hfsCtx = none) := by
  have hh' : ¬ env.readHeaderOk = false := by rw [hh]; simp
  have hk' : ¬ env.cardInfoKeyOk = false := by rw [hk]; simp
  by_cases hle : env.lafwVersion ≤ env.fw_version
  · have hli : gamecardLoadInfo env
        = gamecardLoadFail GameCardStatus.LotusAsicFirmwareUpdateRequired := by
      simp only [gamecardLoadInfo, if_neg hh', if_neg hk', if_pos hle]
    refine ⟨⟨fun habs => ?_, fun hlt => absurd hle (by omega)⟩,
      fun _ => by rw [hli]; exact ⟨rfl, rfl⟩⟩
    have hst := gamecardLoadInfoAfterGate_status env
    rw [← habs, hli] at hst
    rcases hst with h | h <;> exact absurd h (by decide)
  · have hli : gamecardLoadInfo env = gamecardLoadInfoAfterGate env := by
      simp only [gamecardLoadInfo, if_neg hh', if_neg hk', if_neg hle]
    exact ⟨⟨fun _ => by omega, fun _ => hli⟩, fun h => absurd h hle⟩

/-- A Hash FS collaborator environment on which every load stage succeeds:
one root entry named "update", all hash windows empty (so the hash checks are
skipped), all reads succeeding. -/
def hfsEnvW : HfsEnv :=
  { readHfsHeader := fun _ =>
      some { magic := 0x30534648, entry_count := 1, name_table_size := 0x10 },
    readFull := fun _ _ => some [],
    sha256 := fun _ => [],
    entryCount := fun _ => 1,
    nameTableSize := fun _ => 0x10,
    getEntry := fun _ _ =>
      { offset := 0, size := 0x200, name_offset := 0, hash_target_size := 0,
        hash_target_offset := 0, hash := [] },
    nameAt := fun _ _ => "update" }

/-- A concrete gamecard header: 2 GiB geometry code, root partition table at
0x7200 with an empty hash window. -/
def headerW : GameCardHeaderModel :=
  { rom_size := 0xF8, valid_data_end_address := 3, partition_fs_header_address := 0x7200,
    partition_fs_header_size := 0, partition_fs_header_hash := [] }

/-- A concrete load environment; the transport reports a capacity-maxed
secure-area size, as SX OS does. -/
def loadEnvW (fw lafw : Nat) (sxos : Bool) : LoadEnv :=
  { hfs := hfsEnvW, readHeaderOk := true, nogcPatch := false, cardInfoKeyOk := true,
    header := headerW, fw_version := fw, lafwVersion := lafw,
    areaSizes := some (0x200, 0x80000000), sxos := sxos }

/-- Witness for C1 at a concrete environment with installed version 2 and
info-block field 1. -/
theorem gamecard_C1_witness :
    (gamecardLoadInfo (loadEnvW 1 2 false) = gamecardLoadInfoAfterGate (loadEnvW 1 2 false)
      ↔ (loadEnvW 1 2 false).fw_version < (loadEnvW 1 2 false).lafwVersion)
    ∧ ((loadEnvW 1 2 false).lafwVersion ≤ (loadEnvW 1 2 false).fw_version →
        (gamecardLoadInfo (loadEnvW 1 2 false)).status
          = GameCardStatus.LotusAsicFirmwareUpdateRequired
        ∧ (gamecardLoadInfo (loadEnvW 1 2 false)).hfsCtx = none) :=
  gamecard_C1 (loadEnvW 1 2 false) rfl rfl

/-- C4: under SX OS the load reaches the loaded terminal with
g_gameCardSecureAreaSize recomputed (gamecard.c:699) but g_gameCardTotalSize
left at the sum with the transport-reported secure size (set at
gamecard.c:1105 and never updated afterwards), so in the loaded state
totalSize differs from normalAreaSize + secureAreaSize: the claimed invariant
fails on the code at this input. -/
theorem gamecard_C4 :
    (gamecardLoadInfo (loadEnvW 1 2 true)).status = GameCardStatus.InsertedAndInfoLoaded
    ∧ (gamecardLoadInfo (loadEnvW 1 2 true)).totalSize
      ≠ (gamecardLoadInfo (loadEnvW 1 2 true)).normalAreaSize
        + (gamecardLoadInfo (loadEnvW 1 2 true)).secureAreaSize := by
  constructor
  · decide
  · decide

/-- C5: the capacity lookup is a total pure function mapping each of the six
defined geometry codes to its documented byte capacity and every other code
to 0 (failure), and a zero capacity prevents the load from reaching the
loaded terminal. -/
theorem gamecard_C5 :
    (gamecardGetCapacityFromRomSizeValue GameCardRomSize_1GiB = GameCardCapacity_1GiB
      ∧ gamecardGetCapacityFromRomSizeValue GameCardRomSize_2GiB = GameCardCapacity_2GiB
      ∧ gamecardGetCapacityFromRomSizeValue GameCardRomSize_4GiB = GameCardCapacity_4GiB
      ∧ gamecardGetCapacityFromRomSizeValue GameCardRomSize_8GiB = GameCardCapacity_8GiB
      ∧ gamecardGetCapacityFromRomSizeValue GameCardRomSize_16GiB = GameCardCapacity_16GiB
      ∧ gamecardGetCapacityFromRomSizeValue GameCardRomSize_32GiB = GameCardCapacity_32GiB)
    ∧ (∀ r : Nat, r ≠ GameCardRomSize_1GiB → r ≠ GameCardRomSize_2GiB →
        r ≠ GameCardRomSize_4GiB → r ≠ GameCardRomSize_8GiB → r ≠ GameCardRomSize_16GiB →
        r ≠ GameCardRomSize_32GiB → gamecardGetCapacityFromRomSizeValue r = 0)
    ∧ (∀ env : LoadEnv, gamecardGetCapacityFromRomSizeValue env.header.rom_size = 0 →
        (gamecardLoadInfo env).status ≠ GameCardStatus.InsertedAndInfoLoaded) := by
  refine ⟨by decide, ?_, ?_⟩
  · intro r h1 h2 h3 h4 h5 h6
    simp [gamecardGetCapacityFromRomSizeValue, h1, h2, h3, h4, h5, h6]
  · intro env hc hl
    rcases gamecardLoadInfo_cases env with ⟨st, heq, hne⟩ |
      ⟨n, s, root, children, _, _, _, hcap, _⟩
    · rw [heq] at hl
      exact hne hl
    · exact hcap hc

/-- A load environment whose header carries an undefined geometry code. -/
def loadEnvBadRom : LoadEnv :=
  { loadEnvW 1 2 false with header := { headerW with rom_size := 0 } }

/-- Witness for C5: geometry code 0 yields capacity 0 and blocks the load at
a concrete environment. -/
theorem gamecard_C5_witness :
    gamecardGetCapacityFromRomSizeValue 0 = 0
    ∧ (gamecardLoadInfo loadEnvBadRom).status ≠ GameCardStatus.InsertedAndInfoLoaded :=
  ⟨gamecard_C5.2.1 0 (by decide) (by decide) (by decide) (by decide) (by decide) (by decide),
   gamecard_C5.2.2 loadEnvBadRom (by decide)⟩

/-- C8: a supplied SHA-256 hash over a supplied in-header target window that
does not match the computed digest of the re-read header bytes makes the
node parse fail; any failed node parse (root or child) keeps the load away
from the loaded terminal; and away from the loaded terminal the partition
collection is always released (hfsCtx = none). -/
theorem gamecard_C8 :
    (∀ (env : HfsEnv) (total : Nat) (name : Option String) (offset size : Nat)
        (hash : List Nat) (hto hts : Nat) (fs_header : HashFileSystemHeader)
        (bytes : List Nat),
      env.readHfsHeader offset = some fs_header →
      hts ≠ 0 →
      hto + hts ≤ gamecardHfsHeaderSize fs_header →
      env.readFull (gamecardHfsHeaderSize fs_header) offset = some bytes →
      env.sha256 ((bytes.drop hto).take hts) ≠ hash →
      gamecardInitializeHashFileSystemContext env total name offset size (some hash) hto hts
        = none)
    ∧ (∀ env : LoadEnv,
        (gamecardLoadInfo env).status ≠ GameCardStatus.InsertedAndInfoLoaded →
        (gamecardLoadInfo env).hfsCtx = none)
    ∧ (∀ (env : LoadEnv) (n s : Nat), env.areaSizes = some (n, s) →
        gamecardRootParse env (n + s) = none →
        (gamecardLoadInfo env).status ≠ GameCardStatus.InsertedAndInfoLoaded)
    ∧ (∀ (env : LoadEnv) (n s : Nat) (root : HashFileSystemContext) (i : Nat),
        env.areaSizes = some (n, s) →
        gamecardRootParse env (n + s) = some root →
        i < env.hfs.entryCount root.header →
        gamecardChildParse env.hfs (n + s) root i = none →
        (gamecardLoadInfo env).status ≠ GameCardStatus.InsertedAndInfoLoaded) := by
  refine ⟨?_, ?_, ?_, ?_⟩
  · intro env total name offset size hash hto hts fs_header bytes hread hts0 hwin hfull hne
    simp only [gamecardInitializeHashFileSystemContext]
    split
    · rfl
    · cases hidx : List.findIdx? (fun n => n == name.getD "root")
          g_gameCardHfsPartitionNames with
      | none => simp [hidx]
      | some ty =>
        simp only [hidx, hread]
        split
        · rfl
        · split
          · rfl
          · simp only [hfull]
            rw [if_pos (show hts ≠ 0 ∧ hto + hts ≤ gamecardHfsHeaderSize fs_header
              from ⟨hts0, hwin⟩)]
            rw [if_neg hne]
  · intro env hne
    rcases gamecardLoadInfo_cases env with ⟨st, heq, _⟩ |
      ⟨n, s, root, children, _, _, _, _, heq⟩
    · rw [heq]
      rfl
    · rw [heq] at hne
      exact absurd rfl hne
  · intro env n s hA hroot hl
    rcases gamecardLoadInfo_cases env with ⟨st, heq, hne⟩ |
      ⟨n', s', root', children, hA', hroot', _, _, heq⟩
    · rw [heq] at hl
      exact hne hl
    · rw [hA] at hA'
      simp only [Option.some.injEq, Prod.mk.injEq] at hA'
      obtain ⟨hn, hs⟩ := hA'
      subst hn
      subst hs
      rw [hroot] at hroot'
      simp at hroot'
  · intro env n s root i hA hroot hi hchild hl
    rcases gamecardLoadInfo_cases env with ⟨st, heq, hne⟩ |
      ⟨n', s', root', children, hA', hroot', hch, _, heq⟩
    · rw [heq] at hl
      exact hne hl
    · rw [hA] at hA'
      simp only [Option.some.injEq, Prod.mk.injEq] at hA'
      obtain ⟨hn, hs⟩ := hA'
      subst hn
      subst hs
      rw [hroot] at hroot'
      simp only [Option.some.injEq] at hroot'
      subst hroot'
      exact gamecardLoadChildren_some env.hfs (n + s) root _ children hch i hi hchild

/-- A Hash FS environment whose SHA-256 digest never matches the supplied
hash below. -/
def hfsEnvMismatch : HfsEnv := { hfsEnvW with sha256 := fun _ => [0] }

/-- Witness for C8: the root parse at a concrete mismatching hash fails. -/
theorem gamecard_C8_witness :
    gamecardInitializeHashFileSystemContext hfsEnvMismatch 0x80000200 none 0x7200 0
      (some [1]) 0 1 = none :=
  gamecard_C8.1 hfsEnvMismatch 0x80000200 none 0x7200 0 [1] 0 1
    { magic := 0x30534648, entry_count := 1, name_table_size := 0x10 } []
    rfl (by decide) (by decide) rfl (by decide)

/-- C9: when a hash is supplied together with a target window whose size is
zero or whose end exceeds the computed full header size, the SHA-256
verification is silently skipped: the parse result is identical to parsing
with no hash supplied at all, so the node can be accepted without any
integrity check against the supplied hash. -/
theorem gamecard_C9 (env : HfsEnv) (total : Nat) (name : Option String)
    (offset size : Nat) (h : List Nat) (hto hts : Nat)
    (fs_header : HashFileSystemHeader)
    (hread : env.readHfsHeader offset = some fs_header)
    (hskip : hts = 0 ∨ gamecardHfsHeaderSize fs_header < hto + hts) :
    gamecardInitializeHashFileSystemContext env total name offset size (some h) hto hts
      = gamecardInitializeHashFileSystemContext env total name offset size none hto hts := by
  have hcond : ¬ (hts ≠ 0 ∧ hto + hts ≤ gamecardHfsHeaderSize fs_header) := by
    rcases hskip with h0 | h1
    · intro hc
      exact hc.1 h0
    · intro hc
      omega
  simp only [gamecardInitializeHashFileSystemContext]
  split
  · rfl
  · cases hidx : List.findIdx? (fun n => n == name.getD "root")
        g_gameCardHfsPartitionNames with
    | none => simp [hidx]
    | some ty =>
      simp only [hidx, hread]
      split
      · rfl
      · split
        · rfl
        · cases hfull : env.readFull (gamecardHfsHeaderSize fs_header) offset with
          | none => simp [hfull]
          | some bytes =>
            simp only [hfull]

/-- Witness for C9: a junk hash with a zero-size window is accepted exactly
as if no hash had been supplied, at a concrete environment. -/
theorem gamecard_C9_witness :
    gamecardInitializeHashFileSystemContext hfsEnvW 0x80000200 (some "update") 0x7400 0x200
      (some [9]) 0 0
      = gamecardInitializeHashFileSystemContext hfsEnvW 0x80000200 (some "update") 0x7400
        0x200 none 0 0 :=
  gamecard_C9 hfsEnvW 0x80000200 (some "update") 0x7400 0x200 [9] 0 0
    { magic := 0x30534648, entry_count := 1, name_table_size := 0x10 } rfl (Or.inl rfl)

/-! ## gamecardGetHandleAndStorage (gamecard.c:901-946) -/

/-- Per-attempt transport outcomes for handle acquisition:
`getHandleOk i` is fsDeviceOperatorGetGameCardHandle on loop iteration i,
`openStorageOk i` is fsOpenGameCardStorage on loop iteration i. -/
structure HandleEnv where
  getHandleOk : Nat → Bool
  openStorageOk : Nat → Bool

/-- Result of gamecardGetHandleAndStorage: the returned success flag, how
many loop iterations ran, the list of svcSleepThread arguments (nanoseconds)
issued, and the status word after the call. -/
structure HandleResult where
  success : Bool
  attempts : Nat
  sleeps : List Nat
  status : GameCardStatus
deriving DecidableEq

/-- The retry loop of gamecard.c:911-937: up to `remaining` more iterations,
index `i` next, `prevFailed` records whether the previous iteration failed
(initially false, since rc starts out as 0); a failed previous iteration
sleeps 100 ms (100000000 ns, gamecard.c:915) at the top of the iteration. -/
def gamecardHandleLoop (env : HandleEnv) :
    Nat → Nat → Bool → Bool × Nat × List Nat
  | 0, _, _ => (false, 0, [])
  | r+1, i, prevFailed =>
    let sl : List Nat := if prevFailed then [100000000] else []
    if env.getHandleOk i = false then
      let rest := gamecardHandleLoop env r (i + 1) true
      (rest.1, rest.2.1 + 1, sl ++ rest.2.2)
    else if env.openStorageOk i = false then
      -- gamecard.c:930: the invalid handle is closed, then the loop retries
      let rest := gamecardHandleLoop env r (i + 1) true
      (rest.1, rest.2.1 + 1, sl ++ rest.2.2)
    else
      (true, 1, sl)

/-- gamecardGetHandleAndStorage (gamecard.c:901-946): parameter check, the
10-try loop, and the status update to NoGameCardPatchEnabled when the loop is
exhausted while opening the normal area (partition 0) during bring-up. -/
def gamecardGetHandleAndStorage (st : GameCardStatus) (partition : Nat)
    (env : HandleEnv) : HandleResult :=
  if st.val < GameCardStatus.InsertedAndInfoNotLoaded.val ∨ partition > 1 then
    { success := false, attempts := 0, sleeps := [], status := st }
  else
    let r := gamecardHandleLoop env 10 0 false
    let st2 := if r.1 = false ∧ st = GameCardStatus.InsertedAndInfoNotLoaded ∧ partition = 0
      then GameCardStatus.NoGameCardPatchEnabled else st
    { success := r.1, attempts := r.2.1, sleeps := r.2.2, status := st2 }

/-- Loop bookkeeping: at most `remaining` iterations run, every sleep is
exactly 100 ms, the number of sleeps is (iterations - 1) plus one more when
entered with a previously failed attempt, and if every remaining attempt
fails the loop returns failure after exactly `remaining` iterations. -/
theorem gamecardHandleLoop_spec (env : HandleEnv) :
    ∀ r i pf,
      (gamecardHandleLoop env r i pf).2.1 ≤ r
      ∧ (∀ d ∈ (gamecardHandleLoop env r i pf).2.2, d = 100000000)
      ∧ (gamecardHandleLoop env r i pf).2.2.length
        = (if pf then (gamecardHandleLoop env r i pf).2.1
          else (gamecardHandleLoop env r i pf).2.1 - 1)
      ∧ ((∀ j, i ≤ j → j < i + r →
          env.getHandleOk j = false ∨ env.openStorageOk j = false) →
        (gamecardHandleLoop env r i pf).1 = false
          ∧ (gamecardHandleLoop env r i pf).2.1 = r) := by
  intro r
  induction r with
  | zero =>
    intro i pf
    simp [gamecardHandleLoop]
  | succ n ihr =>
    intro i pf
    have hrec := ihr (i + 1) true
    have hlen : (gamecardHandleLoop env n (i + 1) true).2.2.length
        = (gamecardHandleLoop env n (i + 1) true).2.1 := by
      have h := hrec.2.2.1
      simpa using h
    by_cases hg : env.getHandleOk i = false
    · have hstep : gamecardHandleLoop env (n+1) i pf
          = ((gamecardHandleLoop env n (i+1) true).1,
             (gamecardHandleLoop env n (i+1) true).2.1 + 1,
             (if pf then [100000000] else []) ++ (gamecardHandleLoop env n (i+1) true).2.2) := by
        simp [gamecardHandleLoop, hg]
      rw [hstep]
      refine ⟨?_, ?_, ?_, ?_⟩
      · have h1 := hrec.1
        dsimp only
        omega
      · intro d hd
        dsimp only at hd
        rcases List.mem_append.mp hd with hd | hd
        · by_cases hpf : pf
          · simp [hpf] at hd
            exact hd
          · simp [hpf] at hd
        · exact hrec.2.1 d hd
      · dsimp only
        rw [List.length_append, hlen]
        by_cases hpf : pf <;> simp [hpf] <;> omega
      · intro hall
        dsimp only
        have h2 := hrec.2.2.2 (fun j hj1 hj2 => hall j (by omega) (by omega))
        exact ⟨h2.1, by omega⟩
    · by_cases ho : env.openStorageOk i = false
      · have hstep : gamecardHandleLoop env (n+1) i pf
            = ((gamecardHandleLoop env n (i+1) true).1,
               (gamecardHandleLoop env n (i+1) true).2.1 + 1,
               (if pf then [100000000] else [])
                 ++ (gamecardHandleLoop env n (i+1) true).2.2) := by
          simp [gamecardHandleLoop, hg, ho]
        rw [hstep]
        refine ⟨?_, ?_, ?_, ?_⟩
        · have h1 := hrec.1
          dsimp only
          omega
        · intro d hd
          dsimp only at hd
          rcases List.mem_append.mp hd with hd | hd
          · by_cases hpf : pf
            · simp [hpf] at hd
              exact hd
            · simp [hpf] at hd
          · exact hrec.2.1 d hd
        · dsimp only
          rw [List.length_append, hlen]
          by_cases hpf : pf <;> simp [hpf] <;> omega
        · intro hall
          dsimp only
          have h2 := hrec.2.2.2 (fun j hj1 hj2 => hall j (by omega) (by omega))
          exact ⟨h2.1, by omega⟩
      · have hstep : gamecardHandleLoop env (n+1) i pf
            = (true, 1, (if pf then [100000000] else [])) := by
          simp [gamecardHandleLoop, hg, ho]
        rw [hstep]
        refine ⟨by dsimp only; omega, ?_, ?_, ?_⟩
        · intro d hd
          by_cases hpf : pf
          · simp [hpf] at hd
            exact hd
          · simp [hpf] at hd
        · by_cases hpf : pf <;> simp [hpf]
        · intro hall
          have := hall i le_rfl (by omega)
          rcases this with h | h
          · exact absurd h hg
          · exact absurd h ho

/-- C7: handle acquisition runs at most 10 attempts, every backoff sleep it
issues is exactly 100 ms and there is one between consecutive failed
attempts (none before the first), when every attempt fails nothing is
retried beyond the 10, and an exhausted acquisition during the open-normal-
area step (partition 0) of bring-up publishes the access-restricted terminal
(GameCardStatus_NoGameCardPatchEnabled). -/
theorem gamecard_C7 (st : GameCardStatus) (partition : Nat) (env : HandleEnv) :
    (gamecardGetHandleAndStorage st partition env).attempts ≤ 10
    ∧ (∀ d ∈ (gamecardGetHandleAndStorage st partition env).sleeps, d = 100000000)
    ∧ (gamecardGetHandleAndStorage st partition env).sleeps.length
      = (gamecardGetHandleAndStorage st partition env).attempts - 1
    ∧ ((∀ j, j < 10 → env.getHandleOk j = false ∨ env.openStorageOk j = false) →
        (gamecardGetHandleAndStorage st partition env).success = false)
    ∧ (st = GameCardStatus.InsertedAndInfoNotLoaded → partition = 0 →
        (gamecardGetHandleAndStorage st partition env).success = false →
        (gamecardGetHandleAndStorage st partition env).status
          = GameCardStatus.NoGameCardPatchEnabled) := by
  have hloop := gamecardHandleLoop_spec env 10 0 false
  by_cases hguard : st.val < GameCardStatus.InsertedAndInfoNotLoaded.val ∨ partition > 1
  · have hres : gamecardGetHandleAndStorage st partition env
        = { success := false, attempts := 0, sleeps := [], status := st } := by
      simp only [gamecardGetHandleAndStorage, if_pos hguard]
    rw [hres]
    dsimp only
    refine ⟨by omega, by intro d hd; simp at hd, by simp, fun _ => rfl, ?_⟩
    intro hst hp _
    exfalso
    rcases hguard with h | h
    · rw [hst] at h
      omega
    · omega
  · have hres : gamecardGetHandleAndStorage st partition env
        = { success := (gamecardHandleLoop env 10 0 false).1,
            attempts := (gamecardHandleLoop env 10 0 false).2.1,
            sleeps := (gamecardHandleLoop env 10 0 false).2.2,
            status := if (gamecardHandleLoop env 10 0 false).1 = false
                ∧ st = GameCardStatus.InsertedAndInfoNotLoaded ∧ partition = 0
              then GameCardStatus.NoGameCardPatchEnabled else st } := by
      simp only [gamecardGetHandleAndStorage, if_neg hguard]
    rw [hres]
    dsimp only
    refine ⟨hloop.1, hloop.2.1, ?_, ?_, ?_⟩
    · have h := hloop.2.2.1
      simpa using h
    · intro hall
      exact (hloop.2.2.2 (fun j hj1 hj2 => hall j (by omega))).1
    · intro hst hp hfail
      rw [if_pos (show (gamecardHandleLoop env 10 0 false).1 = false
        ∧ st = GameCardStatus.InsertedAndInfoNotLoaded ∧ partition = 0
        from ⟨hfail, hst, hp⟩)]

/-- A handle environment on which every acquisition attempt fails. -/
def handleEnvFail : HandleEnv := { getHandleOk := fun _ => false, openStorageOk := fun _ => false }

/-- Witness for C7 at the all-failing environment during the open-normal-area
step: 10 attempts, nine 100 ms sleeps, and the access-restricted terminal. -/
theorem gamecard_C7_witness :
    (gamecardGetHandleAndStorage GameCardStatus.InsertedAndInfoNotLoaded 0
        handleEnvFail).attempts ≤ 10
    ∧ (gamecardGetHandleAndStorage GameCardStatus.InsertedAndInfoNotLoaded 0
        handleEnvFail).status = GameCardStatus.NoGameCardPatchEnabled :=
  ⟨(gamecard_C7 GameCardStatus.InsertedAndInfoNotLoaded 0 handleEnvFail).1,
   (gamecard_C7 GameCardStatus.InsertedAndInfoNotLoaded 0 handleEnvFail).2.2.2.2
     rfl rfl (by decide)⟩

/-! ## Public query getters (gamecard.c:334-402) -/

/-- The globals slice the query getters consult. -/
structure GamecardQueryState where
  interfaceInit : Bool
  status : GameCardStatus
  header : GameCardHeaderModel
  totalSize : Nat
  capacity : Nat
deriving DecidableEq

/-- GAMECARD_PAGE_OFFSET(x) from the gamecard.h interface: page index times
GAMECARD_PAGE_SIZE (modelled from the spec together with the page size). -/
def GAMECARD_PAGE_OFFSET (x : Nat) : Nat := x * GAMECARD_PAGE_SIZE

/-- gamecardGetHeader (gamecard.c:334-345): the caller-supplied out object is
modelled as `Option` of its previous content (`none` = NULL pointer); the
result pairs the returned flag with the out object after the call. -/
def gamecardGetHeader (st : GamecardQueryState) (out : Option GameCardHeaderModel) :
    Bool × Option GameCardHeaderModel :=
  let ret := st.interfaceInit && st.status == GameCardStatus.InsertedAndInfoLoaded
    && out.isSome
  (ret, if ret then some st.header else out)

/-- gamecardGetTotalSize (gamecard.c:365-376). -/
def gamecardGetTotalSize (st : GamecardQueryState) (out : Option Nat) :
    Bool × Option Nat :=
  let ret := st.interfaceInit && st.status == GameCardStatus.InsertedAndInfoLoaded
    && out.isSome
  (ret, if ret then some st.totalSize else out)

/-- gamecardGetTrimmedSize (gamecard.c:378-389): sizeof(GameCardHeader) +
GAMECARD_PAGE_OFFSET(valid_data_end_address). -/
def gamecardGetTrimmedSize (st : GamecardQueryState) (out : Option Nat) :
    Bool × Option Nat :=
  let ret := st.interfaceInit && st.status == GameCardStatus.InsertedAndInfoLoaded
    && out.isSome
  (ret, if ret then
    some (GameCardHeader_size + GAMECARD_PAGE_OFFSET st.header.valid_data_end_address)
  else out)

/-- gamecardGetRomCapacity (gamecard.c:391-402). -/
def gamecardGetRomCapacity (st : GamecardQueryState) (out : Option Nat) :
    Bool × Option Nat :=
  let ret := st.interfaceInit && st.status == GameCardStatus.InsertedAndInfoLoaded
    && out.isSome
  (ret, if ret then some st.capacity else out)

/-- C10: each public query getter returns failure and leaves the caller's
out object unchanged unless the subsystem is initialized, the status is the
loaded terminal and the out pointer is non-null; on success the out object
holds exactly the corresponding loaded state value. -/
theorem gamecard_C10 :
    (∀ (st : GamecardQueryState) (out : Option GameCardHeaderModel),
      (st.interfaceInit = true ∧ st.status = GameCardStatus.InsertedAndInfoLoaded
          ∧ out ≠ none →
        gamecardGetHeader st out = (true, some st.header))
      ∧ (¬ (st.interfaceInit = true ∧ st.status = GameCardStatus.InsertedAndInfoLoaded
          ∧ out ≠ none) →
        gamecardGetHeader st out = (false, out)))
    ∧ (∀ (st : GamecardQueryState) (out : Option Nat),
      (st.interfaceInit = true ∧ st.status = GameCardStatus.InsertedAndInfoLoaded
          ∧ out ≠ none →
        gamecardGetTotalSize st out = (true, some st.totalSize))
      ∧ (¬ (st.interfaceInit = true ∧ st.status = GameCardStatus.InsertedAndInfoLoaded
          ∧ out ≠ none) →
        gamecardGetTotalSize st out = (false, out)))
    ∧ (∀ (st : GamecardQueryState) (out : Option Nat),
      (st.interfaceInit = true ∧ st.status = GameCardStatus.InsertedAndInfoLoaded
          ∧ out ≠ none →
        gamecardGetTrimmedSize st out = (true,
          some (GameCardHeader_size
            + GAMECARD_PAGE_OFFSET st.header.valid_data_end_address)))
      ∧ (¬ (st.interfaceInit = true ∧ st.status = GameCardStatus.InsertedAndInfoLoaded
          ∧ out ≠ none) →
        gamecardGetTrimmedSize st out = (false, out)))
    ∧ (∀ (st : GamecardQueryState) (out : Option Nat),
      (st.interfaceInit = true ∧ st.status = GameCardStatus.InsertedAndInfoLoaded
          ∧ out ≠ none →
        gamecardGetRomCapacity st out = (true, some st.capacity))
      ∧ (¬ (st.interfaceInit = true ∧ st.status = GameCardStatus.InsertedAndInfoLoaded
          ∧ out ≠ none) →
        gamecardGetRomCapacity st out = (false, out))) := by
  have hbool : ∀ (st : GamecardQueryState) (α : Type) (out : Option α),
      ((st.interfaceInit && st.status == GameCardStatus.InsertedAndInfoLoaded
        && out.isSome) = true)
      ↔ (st.interfaceInit = true ∧ st.status = GameCardStatus.InsertedAndInfoLoaded
        ∧ out ≠ none) := by
    intro st α out
    constructor
    · intro h
      simp only [Bool.and_eq_true, beq_iff_eq, Option.isSome_iff_exists] at h
      obtain ⟨⟨h1, h2⟩, h3⟩ := h
      obtain ⟨x, hx⟩ := h3
      exact ⟨h1, h2, by rw [hx]; simp⟩
    · intro ⟨h1, h2, h3⟩
      simp only [Bool.and_eq_true, beq_iff_eq]
      refine ⟨⟨h1, h2⟩, ?_⟩
      cases out with
      | none => exact absurd rfl h3
      | some x => rfl
  refine ⟨?_, ?_, ?_, ?_⟩ <;> intro st out <;> constructor
  · intro hc
    have hb := (hbool st _ out).mpr hc
    simp only [gamecardGetHeader, hb]
    simp
  · intro hc
    have hb : (st.interfaceInit && st.status == GameCardStatus.InsertedAndInfoLoaded
        && out.isSome) = false := by
      rcases Bool.eq_false_or_eq_true (st.interfaceInit
          && st.status == GameCardStatus.InsertedAndInfoLoaded && out.isSome) with h | h
      · exact absurd ((hbool st _ out).mp h) hc
      · exact h
    simp only [gamecardGetHeader, hb]
    simp
  · intro hc
    have hb := (hbool st _ out).mpr hc
    simp only [gamecardGetTotalSize, hb]
    simp
  · intro hc
    have hb : (st.interfaceInit && st.status == GameCardStatus.InsertedAndInfoLoaded
        && out.isSome) = false := by
      rcases Bool.eq_false_or_eq_true (st.interfaceInit
          && st.status == GameCardStatus.InsertedAndInfoLoaded && out.isSome) with h | h
      · exact absurd ((hbool st _ out).mp h) hc
      · exact h
    simp only [gamecardGetTotalSize, hb]
    simp
  · intro hc
    have hb := (hbool st _ out).mpr hc
    simp only [gamecardGetTrimmedSize, hb]
    simp
  · intro hc
    have hb : (st.interfaceInit && st.status == GameCardStatus.InsertedAndInfoLoaded
        && out.isSome) = false := by
      rcases Bool.eq_false_or_eq_true (st.interfaceInit
          && st.status == GameCardStatus.InsertedAndInfoLoaded && out.isSome) with h | h
      · exact absurd ((hbool st _ out).mp h) hc
      · exact h
    simp only [gamecardGetTrimmedSize, hb]
    simp
  · intro hc
    have hb := (hbool st _ out).mpr hc
    simp only [gamecardGetRomCapacity, hb]
    simp
  · intro hc
    have hb : (st.interfaceInit && st.status == GameCardStatus.InsertedAndInfoLoaded
        && out.isSome) = false := by
      rcases Bool.eq_false_or_eq_true (st.interfaceInit
          && st.status == GameCardStatus.InsertedAndInfoLoaded && out.isSome) with h | h
      · exact absurd ((hbool st _ out).mp h) hc
      · exact h
    simp only [gamecardGetRomCapacity, hb]
    simp

/-- A concrete loaded query state. -/
def queryStW : GamecardQueryState :=
  { interfaceInit := true, status := GameCardStatus.InsertedAndInfoLoaded,
    header := headerW, totalSize := 0x80000200, capacity := 0x80000000 }

/-- A concrete not-loaded query state. -/
def queryStIdle : GamecardQueryState :=
  { interfaceInit := true, status := GameCardStatus.NotInserted,
    header := headerW, totalSize := 0, capacity := 0 }

/-- Witness for C10: a loaded state returns the stored total size, a
not-loaded state fails and leaves the out object unchanged. -/
theorem gamecard_C10_witness :
    gamecardGetTotalSize queryStW (some 0) = (true, some queryStW.totalSize)
    ∧ gamecardGetTotalSize queryStIdle (some 7) = (false, some 7) :=
  ⟨(gamecard_C10.2.1 queryStW (some 0)).1 ⟨rfl, rfl, by simp⟩,
   (gamecard_C10.2.1 queryStIdle (some 7)).2 (by intro h; exact absurd h.2.1 (by decide))⟩
